import Mathlib

/-!
Verification of the farm-backend order workflow: a shallow embedding of the
order-creation route, the order/notification services and the payment
webhook handling, together with theorems settling the specification claims.

Database tables are embedded as Lean lists of row structures; each request
handler is a pure function from an explicit state to a new state plus a
result, with rollback rendered as returning the unchanged state.  Python
dynamic values that flow out of JSON parsing are embedded as an inductive
type, and the relevant Python primitives (truthiness, int conversion,
string strip and split) are modelled as executable Lean functions.
Monetary amounts (Float columns in the source) are embedded as rationals.
-/

deriving instance DecidableEq for Except

/-- Embedding of a Python value as produced by json.loads for the fields of
an order item: None, bool, int, non-integral number, or string. -/
inductive PyVal where
  | vnone : PyVal
  | vbool : Bool → PyVal
  | vint : Int → PyVal
  | vnum : Rat → PyVal
  | vstr : String → PyVal
deriving DecidableEq, Repr

/-- Python truthiness of an embedded value: None, False, 0, 0.0 and the
empty string are falsy, everything else is truthy. -/
def pyTruthy : PyVal → Bool
  | .vnone => false
  | .vbool b => b
  | .vint n => n != 0
  | .vnum q => q != 0
  | .vstr s => s != ""

/-- Characters treated as whitespace by the Python str.strip default. -/
def isPySpace (c : Char) : Bool :=
  c = ' ' || c = '\t' || c = '\n' || c = '\r' || c = '\x0b' || c = '\x0c'

/-- Strip leading and trailing whitespace from a character list. -/
def trimChars (cs : List Char) : List Char :=
  ((cs.dropWhile isPySpace).reverse.dropWhile isPySpace).reverse

/-- Model of Python str.strip with no argument. -/
def pyStrip (s : String) : String := ⟨trimChars s.data⟩

/-- Accumulate a decimal digit list into a natural number. -/
def digitsToNat (ds : List Char) : Nat :=
  ds.foldl (fun a c => a * 10 + (c.toNat - '0'.toNat)) 0

/-- Model of the Python int constructor applied to a string: surrounding
whitespace is stripped, an optional sign is allowed, and the remainder must
be a nonempty run of decimal digits; anything else raises ValueError,
rendered as none. -/
def pyIntOfString (s : String) : Option Int :=
  match trimChars s.data with
  | [] => none
  | c :: rest =>
    let signed : Int × List Char :=
      if c = '-' then (-1, rest) else if c = '+' then (1, rest) else (1, c :: rest)
    if signed.2 ≠ [] ∧ signed.2.all Char.isDigit then
      some (signed.1 * (digitsToNat signed.2 : Int))
    else none

/-- Truncation of a rational toward zero, the behaviour of the Python int
constructor on a float. -/
def ratTrunc (q : Rat) : Int := if 0 ≤ q then q.floor else q.ceil

/-- Model of the Python int constructor on an embedded value: ints pass
through, bools map to 0 and 1, numbers truncate toward zero, strings parse,
and None raises TypeError, rendered as none. -/
def pyToInt : PyVal → Option Int
  | .vnone => none
  | .vbool b => some (if b then 1 else 0)
  | .vint n => some n
  | .vnum q => some (ratTrunc q)
  | .vstr s => pyIntOfString s

/-- Model of the Python expression a or b over optional strings, where None
and the empty string are falsy. -/
def pyOrOpt (a b : Option String) : Option String :=
  match a with
  | some s => if s = "" then b else some s
  | none => b

/-- Model of the Python expression x if x else None over optional strings. -/
def pyNonEmpty (a : Option String) : Option String :=
  match a with
  | some s => if s = "" then none else some s
  | none => none

/-- Lower-case a single ASCII character, a model of str.lower. -/
def charLower (c : Char) : Char :=
  if 'A' ≤ c ∧ c ≤ 'Z' then Char.ofNat (c.toNat + 32) else c

/-- Model of Python str.lower restricted to ASCII. -/
def strLower (s : String) : String := ⟨s.data.map charLower⟩

/-- Does the first character list occur at the head of the second? -/
def listIsPrefixOf : List Char → List Char → Bool
  | [], _ => true
  | _ :: _, [] => false
  | p :: ps, c :: cs => p = c && listIsPrefixOf ps cs

/-- Does the first character list occur anywhere inside the second?  Models
the Python expression pat in s. -/
def listContainsSub (pat : List Char) : List Char → Bool
  | [] => listIsPrefixOf pat []
  | c :: cs => listIsPrefixOf pat (c :: cs) || listContainsSub pat cs

/-- Model of the Python expression pat in s over strings. -/
def strContainsSub (pat s : String) : Bool := listContainsSub pat.data s.data

/-- Split a character list on a separator character; models str.split with
a one-character separator. -/
def splitOnChar (sep : Char) (cs : List Char) : List (List Char) :=
  cs.foldr
    (fun c acc =>
      match acc with
      | [] => [[c]]
      | g :: gs => if c = sep then [] :: g :: gs else (c :: g) :: gs)
    [[]]

/-- Model of the Python expression s.split(sep) for a one-character
separator, returning strings. -/
def pySplit (sep : Char) (s : String) : List String :=
  (splitOnChar sep s.data).map fun l => ⟨l⟩

/-- Rational addition implemented through mkRat so that it reduces inside
the kernel; proved equal to ordinary addition below. -/
def ratAdd (a b : Rat) : Rat :=
  mkRat (a.num * (b.den : Int) + b.num * (a.den : Int)) (a.den * b.den)

/-- Rational multiplication implemented through mkRat so that it reduces
inside the kernel; proved equal to ordinary multiplication below. -/
def ratMul (a b : Rat) : Rat :=
  mkRat (a.num * b.num) (a.den * b.den)

/-- Embedding of an integer as a rational through mkRat. -/
def ratOfInt (n : Int) : Rat := mkRat n 1

/-- Row of the products table. -/
structure ProductRow where
  id : Nat
  name : String
  price : Rat
  available : Bool
deriving DecidableEq, Repr

/-- Row of the orders table. -/
structure OrderRow where
  id : Nat
  customer_name : String
  customer_phone : String
  delivery_address : Option String
  total_amount : Rat
  payment_proof_url : Option String
  device_id : Option String
  status : String
  created_at : Nat
deriving DecidableEq, Repr

/-- Row of the order_items table. -/
structure OrderItemRow where
  id : Nat
  order_id : Nat
  product_id : Nat
  product_name : String
  product_price : Rat
  quantity : Int
  subtotal : Rat
deriving DecidableEq, Repr

/-- Row of the device_tokens table. -/
structure DeviceTokenRow where
  id : Nat
  device_id : String
  fcm_token : String
  is_admin : Bool
deriving DecidableEq, Repr

/-- Row of the notifications table. -/
structure NotificationRow where
  id : Nat
  title : String
  message : String
  sent_count : Nat
  failed_count : Nat
deriving DecidableEq, Repr

/-- Row of the notification_recipients table. -/
structure RecipientRow where
  id : Nat
  notification_id : Nat
  device_id : String
  fcm_token_id : Option Nat
  is_clicked : Bool
deriving DecidableEq, Repr

/-- The database state: one list per table plus autoincrement counters and
the current timestamp used for created_at columns. -/
structure DBState where
  products : List ProductRow
  orders : List OrderRow
  order_items : List OrderItemRow
  device_tokens : List DeviceTokenRow
  notifications : List NotificationRow
  recipients : List RecipientRow
  next_order_id : Nat
  next_item_id : Nat
  next_token_id : Nat
  next_notif_id : Nat
  next_rec_id : Nat
  now : Nat
deriving DecidableEq, Repr

/-- The full server state: database plus the payment-proof files stored in
the uploads directory, identified by filename. -/
structure ServerState where
  db : DBState
  files : List String
deriving DecidableEq, Repr

/-- Insert an order into a list that is sorted newest-first, keeping it
sorted; building block of the ORDER BY created_at DESC model. -/
def insertByCreated (o : OrderRow) : List OrderRow → List OrderRow
  | [] => [o]
  | x :: xs =>
    if x.created_at ≤ o.created_at then o :: x :: xs else x :: insertByCreated o xs

/-- Model of the SQL clause ORDER BY created_at DESC as an insertion sort. -/
def sortByCreatedDesc : List OrderRow → List OrderRow
  | [] => []
  | x :: xs => insertByCreated x (sortByCreatedDesc xs)

/-- A list of orders is newest-first when each entry was created no earlier
than every later entry. -/
def NewestFirst (l : List OrderRow) : Prop :=
  l.Pairwise fun a b => b.created_at ≤ a.created_at

/-- Truthiness of an optional string parameter, as tested by a bare Python
if statement: None and the empty string are falsy. -/
def optTruthy : Option String → Bool
  | none => false
  | some s => s != ""

/-- The status-filter stage of OrderService.get_orders: exact match on a
single truthy status value. -/
def statusStage (status_filter : Option String) (q : List OrderRow) : List OrderRow :=
  match status_filter with
  | some sf => if sf = "" then q else q.filter fun o => decide (o.status = sf)
  | none => q

/-- The date-filter stage of OrderService.get_orders.  The dateRange
argument models datetime.strptime combined with datetime.combine,
returning the bounds of the calendar day and none when strptime raises,
in which case the filter is skipped. -/
def dateStage (dateRange : String → Option (Nat × Nat))
    (date_str : Option String) (q : List OrderRow) : List OrderRow :=
  match date_str with
  | some ds =>
    if ds = "" then q else
      match dateRange ds with
      | some lohi =>
        q.filter fun o => decide (lohi.1 ≤ o.created_at ∧ o.created_at ≤ lohi.2)
      | none => q
  | none => q

/-- The free-text id-search stage of OrderService.get_orders: strip the
hash characters, convert with the Python int constructor, and filter on
the id; when conversion raises ValueError the query is filtered on id =
-1 instead. -/
def searchStage (search : Option String) (q : List OrderRow) : List OrderRow :=
  match search with
  | some s =>
    if s = "" then q else
      match pyIntOfString ⟨s.data.filter fun c => c ≠ '#'⟩ with
      | some n => q.filter fun o => decide ((o.id : Int) = n)
      | none => q.filter fun o => decide ((o.id : Int) = -1)
  | none => q

/-- Model of OrderService.get_orders: apply the status, date and free-text
id filters to the orders table, order newest-first, then apply offset and
limit. -/
def OrderService.get_orders (dateRange : String → Option (Nat × Nat))
    (db : DBState) (skip limit : Nat)
    (status_filter date_str search : Option String) : List OrderRow :=
  ((sortByCreatedDesc
    (searchStage search
      (dateStage dateRange date_str
        (statusStage status_filter db.orders)))).drop skip).take limit

/-- Model of OrderService.get_order: first row of the orders table with the
given id. -/
def OrderService.get_order (db : DBState) (order_id : Nat) : Option OrderRow :=
  db.orders.find? fun o => decide (o.id = order_id)

/-- Pending order item data accumulated by the route before persistence. -/
structure PendingItem where
  product_id : Nat
  product_name : String
  product_price : Rat
  quantity : Int
  subtotal : Rat
deriving DecidableEq, Repr

/-- Order column values assembled by the route before persistence. -/
structure OrderData where
  customer_name : String
  customer_phone : String
  delivery_address : Option String
  total_amount : Rat
  payment_proof_url : Option String
  device_id : Option String
  status : String
deriving DecidableEq, Repr

/-- Materialise pending items as order_items rows for a given order id,
assigning consecutive autoincrement ids. -/
def mkItemRows (oid : Nat) : Nat → List PendingItem → List OrderItemRow
  | _, [] => []
  | iid, r :: rest =>
    ⟨iid, oid, r.product_id, r.product_name, r.product_price, r.quantity, r.subtotal⟩ ::
      mkItemRows oid (iid + 1) rest

/-- Model of OrderService.create_order: insert the order row, flush to get
its id, insert one row per item, then commit; any failure inside the block
rolls the whole transaction back, leaving the database unchanged, and
re-raises.  The commitOk flag models whether the database raises. -/
def OrderService.create_order (db : DBState) (order_data : OrderData)
    (items_data : List PendingItem) (commitOk : Bool) :
    DBState × Except Unit OrderRow :=
  if commitOk then
    let oid := db.next_order_id
    let ord : OrderRow :=
      ⟨oid, order_data.customer_name, order_data.customer_phone,
        order_data.delivery_address, order_data.total_amount,
        order_data.payment_proof_url, order_data.device_id,
        order_data.status, db.now⟩
    let rows := mkItemRows oid db.next_item_id items_data
    ({ db with
        orders := db.orders ++ [ord],
        order_items := db.order_items ++ rows,
        next_order_id := oid + 1,
        next_item_id := db.next_item_id + items_data.length }, .ok ord)
  else (db, .error ())

/-- Model of OrderService.update_order_status: overwrite the status of the
rows with the given id and commit. -/
def OrderService.update_order_status (db : DBState) (oid : Nat)
    (status : String) : DBState :=
  { db with
      orders := db.orders.map fun o =>
        if o.id = oid then { o with status := status } else o }

/-- The status-filter stage of the get_user_orders route: a truthy status
parameter is split on commas and stripped; a single status is matched
exactly, several are matched with OR semantics. -/
def userStatusStage (status_filter : Option String) (q : List OrderRow) : List OrderRow :=
  match status_filter with
  | some sf =>
    if sf = "" then q else
      match (pySplit ',' sf).map pyStrip with
      | [s] => q.filter fun o => decide (o.status = s)
      | sts => q.filter fun o => decide (o.status ∈ sts)
  | none => q

/-- Model of the get_user_orders route: resolve the device id from the
query parameter or the cookie, return the empty list when both are falsy,
filter the orders of that device, apply the optional status filter with
comma-separated OR semantics, and return them newest-first with offset and
limit. -/
def Routes.get_user_orders (db : DBState) (user_id cookie_device : Option String)
    (status_filter : Option String) (skip limit : Nat) : List OrderRow :=
  match pyOrOpt user_id cookie_device with
  | none => []
  | some dev =>
    if dev = "" then [] else
      ((sortByCreatedDesc
        (userStatusStage status_filter
          (db.orders.filter fun o => decide (o.device_id = some dev)))).drop
            skip).take limit

/-- Update applied to an existing device-token row on re-registration: the
device id is overwritten, while the admin flag is only ever raised (the
source sets it only when the incoming is_admin is true). -/
def updateTokenRow (device_id : String) (is_admin : Bool) (d : DeviceTokenRow) :
    DeviceTokenRow :=
  { d with device_id := device_id, is_admin := d.is_admin || is_admin }

/-- Apply the re-registration update to the first row holding the token,
the row returned by query(...).first() in the source. -/
def updateFirstToken (token device_id : String) (is_admin : Bool) :
    List DeviceTokenRow → List DeviceTokenRow
  | [] => []
  | d :: ds =>
    if d.fcm_token = token then updateTokenRow device_id is_admin d :: ds
    else d :: updateFirstToken token device_id is_admin ds

/-- Model of NotificationService.register_token.  The raced argument
models the concurrency hazard: some (d, a) means another request committed
a row for the same token between our select and our insert, so the insert
raises IntegrityError, the session rolls back, and the handler retries as
an update of the committed row (whose device id and admin flag were d and
a). -/
def NotificationService.register_token (db : DBState) (token device_id : String)
    (is_admin : Bool) (raced : Option (String × Bool)) : DBState × String :=
  match db.device_tokens.find? fun d => decide (d.fcm_token = token) with
  | some _ =>
    ({ db with device_tokens := updateFirstToken token device_id is_admin db.device_tokens },
      "Token updated")
  | none =>
    match raced with
    | none =>
      ({ db with
          device_tokens :=
            db.device_tokens ++ [⟨db.next_token_id, device_id, token, is_admin⟩],
          next_token_id := db.next_token_id + 1 }, "Token registered")
    | some rc =>
      let db1 : DBState :=
        { db with
            device_tokens := db.device_tokens ++ [⟨db.next_token_id, rc.1, token, rc.2⟩],
            next_token_id := db.next_token_id + 1 }
      ({ db1 with device_tokens := updateFirstToken token device_id is_admin db1.device_tokens },
        "Token updated (race condition handled)")

/-- Classification of a delivery exception message as a token-invalid
error: the source checks for the substrings invalid and not found in the
lower-cased message. -/
def isInvalidTokenError (e : String) : Bool :=
  strContainsSub "invalid" (strLower e) || strContainsSub "not found" (strLower e)

/-- Nullify the fcm_token_id of every recipient row referencing the given
device-token id, the referential-integrity step run before a token row is
deleted. -/
def nullifyTokenRefs (tid : Nat) (recs : List RecipientRow) : List RecipientRow :=
  recs.map fun r =>
    if r.fcm_token_id = some tid then { r with fcm_token_id := none } else r

/-- Accumulator of the notification fan-out loop: counters, the session
view of the recipients and device_tokens tables, and the next recipient
id. -/
structure SendAcc where
  sent : Nat
  failed : Nat
  recs : List RecipientRow
  devs : List DeviceTokenRow
  next_rec_id : Nat
deriving DecidableEq, Repr

/-- One iteration of the fan-out loop over a device token.  On a
successful send the sent counter increments and one recipient row is
added; on a failure the failed counter increments and, when the error is
classified token-invalid, dangling recipient references are nullified and
the token row is deleted.  The outcome argument models the push-provider
call, returning none on success and the exception message on failure. -/
def sendStep (outcome : DeviceTokenRow → Option String) (nid : Nat)
    (acc : SendAcc) (t : DeviceTokenRow) : SendAcc :=
  match outcome t with
  | none =>
    { acc with
        sent := acc.sent + 1,
        recs := acc.recs ++ [⟨acc.next_rec_id, nid, t.device_id, some t.id, false⟩],
        next_rec_id := acc.next_rec_id + 1 }
  | some e =>
    if isInvalidTokenError e then
      { acc with
          failed := acc.failed + 1,
          recs := nullifyTokenRefs t.id acc.recs,
          devs := acc.devs.filter fun d => decide (d.id ≠ t.id) }
    else { acc with failed := acc.failed + 1 }

/-- The notification fan-out loop over a list of device tokens. -/
def sendLoop (outcome : DeviceTokenRow → Option String) (nid : Nat)
    (tokens : List DeviceTokenRow) (acc : SendAcc) : SendAcc :=
  tokens.foldl (sendStep outcome nid) acc

/-- Model of NotificationService.send_notification_to_all: create one
notification row, run the fan-out loop over the given device tokens, store
the final counters and commit; if the commit raises, everything rolls back
and the exception propagates. -/
def NotificationService.send_notification_to_all (db : DBState)
    (title message_text : String) (device_tokens : List DeviceTokenRow)
    (outcome : DeviceTokenRow → Option String) (commitOk : Bool) :
    DBState × Except Unit (Option NotificationRow) :=
  let nid := db.next_notif_id
  let acc := sendLoop outcome nid device_tokens
    ⟨0, 0, db.recipients, db.device_tokens, db.next_rec_id⟩
  let notif : NotificationRow := ⟨nid, title, message_text, acc.sent, acc.failed⟩
  if commitOk then
    let db2 : DBState :=
      { db with
          notifications := db.notifications ++ [notif],
          recipients := acc.recs,
          device_tokens := acc.devs,
          next_notif_id := nid + 1,
          next_rec_id := acc.next_rec_id }
    (db2, .ok (db2.notifications.find? fun n => decide (n.id = nid)))
  else (db, .error ())

/-- Model of NotificationService.send_notification_to_admin: same fan-out
restricted to admin device tokens, returning none without touching the
database when no messaging instance is configured or no admin token
exists.  The redirect_url only enters the push payload, not the database. -/
def NotificationService.send_notification_to_admin (db : DBState)
    (title message_text : String) (redirect_url : Option String)
    (messagingOn : Bool) (outcome : DeviceTokenRow → Option String)
    (commitOk : Bool) : DBState × Except Unit (Option NotificationRow) :=
  if messagingOn then
    let admin_tokens := db.device_tokens.filter fun d => d.is_admin
    if admin_tokens.isEmpty then (db, .ok none)
    else
      let _ := redirect_url
      NotificationService.send_notification_to_all db title message_text
        admin_tokens outcome commitOk
  else (db, .ok none)

/-- An uploaded payment-proof file: client-supplied filename and content
size in bytes (only the size and the extension matter to validation). -/
structure FileUpload where
  filename : String
  size : Nat
deriving DecidableEq, Repr

/-- An HTTPException raised by a route: status code and detail string. -/
structure ApiError where
  status : Nat
  detail : String
deriving DecidableEq, Repr

/-- One entry of the parsed items JSON array; a field is none when the key
is absent from the object (dict.get returning None). -/
structure OrderItemInput where
  product_id : Option PyVal
  quantity : Option PyVal
deriving DecidableEq, Repr

/-- The create-order form payload.  The items field is none when the items
form value is not valid JSON; cookie_device_id is the device_id cookie. -/
structure CreateOrderRequest where
  customer_name : String
  customer_phone : String
  delivery_address : Option String
  items : Option (List OrderItemInput)
  payment_method : String
  device_id : Option String
  cookie_device_id : Option String
  payment_proof : Option FileUpload
deriving DecidableEq, Repr

/-- Model of pathlib Path(name).suffix composed with str.lower: the last
dot-separated piece, with a leading dot, lower-cased; empty when the name
has no dot, ends in a dot, or is a bare dotfile. -/
def pathSuffix (name : String) : String :=
  let parts := splitOnChar '.' name.data
  match parts with
  | [] => ""
  | [_] => ""
  | ps =>
    let t := ps.getLastD []
    if t = [] then ""
    else if ps.length = 2 ∧ ps.headD [] = [] then ""
    else strLower ⟨'.' :: t⟩

/-- The allow-listed payment-proof file extensions. -/
def allowedExtensions : List String := [".jpg", ".jpeg", ".png", ".gif", ".pdf", ".webp"]

/-- Model of the payment-proof handling block of the create-order route:
validate size (at most 10 MB), non-emptiness and extension, then write the
file under a UUID filename and record its public URL.  The uuid argument
models uuid.uuid4, the writeOk flag models whether the filesystem write
raises.  Runs before any item is validated. -/
def Routes.file_step (uuid : String) (writeOk : Bool) (st : ServerState)
    (payment_proof : Option FileUpload) :
    Except ApiError (ServerState × Option String) :=
  match payment_proof with
  | none => .ok (st, none)
  | some f =>
    if f.size > 10485760 then
      .error ⟨400, "File too large. Maximum size is 10MB"⟩
    else if f.size = 0 then
      .error ⟨400, "File is empty"⟩
    else
      let ext := pathSuffix f.filename
      if ¬ (allowedExtensions.contains ext) then
        .error ⟨400, "Invalid file type"⟩
      else if writeOk then
        let fn := uuid ++ ext
        .ok ({ st with files := st.files ++ [fn] },
          some ("/uploads/payment_proofs/" ++ fn))
      else
        .error ⟨500, "Error saving file: Storage not available. Please try again later."⟩

/-- Model of the item-validation loop of the create-order route, in source
order: falsy check on both fields, int conversion and positivity of
product_id, int conversion and the (0, 1000] bound of quantity, catalog
lookup, availability and positive-price checks, then subtotal and total
accumulation. -/
def Routes.process_items (products : List ProductRow) :
    List OrderItemInput → Rat → List PendingItem →
    Except ApiError (Rat × List PendingItem)
  | [], total, acc => .ok (total, acc)
  | item :: rest, total, acc =>
    let pid := item.product_id.getD .vnone
    let qty := item.quantity.getD .vnone
    if ¬ (pyTruthy pid) ∨ ¬ (pyTruthy qty) then
      .error ⟨400, "Invalid item format"⟩
    else
      match pyToInt pid with
      | none => .error ⟨400, "Invalid product_id: must be a positive integer"⟩
      | some p =>
        if p ≤ 0 then .error ⟨400, "Invalid product_id: must be a positive integer"⟩
        else
          match pyToInt qty with
          | none => .error ⟨400, "Invalid quantity: must be an integer"⟩
          | some q =>
            if q ≤ 0 then
              .error ⟨400, "Invalid quantity: must be greater than 0"⟩
            else if q > 1000 then
              .error ⟨400, "Invalid quantity: cannot exceed 1000 items per product"⟩
            else
              match products.find? fun pr => decide ((pr.id : Int) = p) with
              | none => .error ⟨404, "Product not found"⟩
              | some product =>
                if ¬ product.available then
                  .error ⟨400, "Product is not available"⟩
                else if product.price ≤ 0 then
                  .error ⟨400, "Product has invalid price"⟩
                else
                  if ratMul product.price (ratOfInt q) ≤ 0 then
                    .error ⟨400, "Invalid subtotal calculated"⟩
                  else
                    Routes.process_items products rest
                      (ratAdd total (ratMul product.price (ratOfInt q)))
                      (acc ++ [⟨product.id, product.name, product.price, q,
                        ratMul product.price (ratOfInt q)⟩])

/-- Model of the create-order route: resolve the device id, parse the
items JSON, validate and store the payment proof, validate and price the
items, check the total bounds, persist order and items atomically through
OrderService.create_order, then notify admin devices best-effort (only for
transfer payments and only when messaging is configured), swallowing any
notification error.  uuid, fileWriteOk, orderCommitOk, messagingOn,
outcome and notifCommitOk model the environment: the generated filename,
filesystem write success, database commit success, Firebase availability,
per-token delivery outcome and notification commit success. -/
def Routes.create_order (uuid : String)
    (fileWriteOk orderCommitOk messagingOn : Bool)
    (outcome : DeviceTokenRow → Option String) (notifCommitOk : Bool)
    (st : ServerState) (req : CreateOrderRequest) :
    ServerState × Except ApiError OrderRow :=
  let dev := pyOrOpt req.device_id req.cookie_device_id
  match req.items with
  | none => (st, .error ⟨400, "Invalid items format"⟩)
  | some items_list =>
    match Routes.file_step uuid fileWriteOk st req.payment_proof with
    | .error e => (st, .error e)
    | .ok su =>
      let st1 := su.1
      match Routes.process_items st1.db.products items_list 0 [] with
      | .error e => (st1, .error e)
      | .ok tr =>
        let total := tr.1
        if total ≤ 0 then
          (st1, .error ⟨400, "Order total must be greater than 0"⟩)
        else if total > 10000000 then
          (st1, .error ⟨400, "Order total exceeds maximum allowed amount"⟩)
        else
          let order_data : OrderData :=
            ⟨req.customer_name, req.customer_phone, pyNonEmpty req.delivery_address,
              total, su.2, dev, "pending"⟩
          match OrderService.create_order st1.db order_data tr.2 orderCommitOk with
          | (_, .error _) => (st1, .error ⟨500, "Internal Server Error"⟩)
          | (db1, .ok ord) =>
            if req.payment_method = "transfer" && messagingOn then
              let nres := NotificationService.send_notification_to_admin db1
                "New Order Received" "New order received" (some "/admin/orders")
                messagingOn outcome notifCommitOk
              ({ st1 with db := nres.1 }, .ok ord)
            else ({ st1 with db := db1 }, .ok ord)

/-- Shared body of the charge.success handling in the webhook route and of
the success branch of the verify route: look the order up; only when it is
still pending, set its status to confirmed and attempt the admin
notification (when messaging is configured), swallowing notification
errors.  Returns the new state and whether the admin notification was
attempted. -/
def Routes.process_charge_success (db : DBState) (order_id : Int)
    (messagingOn : Bool) (outcome : DeviceTokenRow → Option String)
    (commitOk : Bool) : DBState × Bool :=
  match db.orders.find? fun o => decide ((o.id : Int) = order_id) with
  | none => (db, false)
  | some o =>
    if o.status = "pending" then
      let db1 := OrderService.update_order_status db o.id "confirmed"
      if messagingOn then
        let nres := NotificationService.send_notification_to_admin db1
          "New Paystack Order" "New order verified" (some "/admin/orders")
          messagingOn outcome commitOk
        (nres.1, true)
      else (db1, false)
    else (db, false)

/-- Parsed JSON body of a webhook delivery: the event name and the
order_id found under data.metadata, each none when absent. -/
structure WebhookPayload where
  event : Option String
  order_id : Option Int
deriving DecidableEq, Repr

/-- Model of the paystack_webhook route.  The mac argument models HMAC
SHA-512 hex digest computation over the secret and the raw body; secret
models the PAYSTACK_SECRET_KEY environment variable, signature the
x-paystack-signature header, and payload the parsed JSON body (none when
parsing raises).  Returns the new state, the HTTP status code, and whether
an admin notification was attempted. -/
def Routes.paystack_webhook (mac : String → String → String)
    (secret signature : Option String) (body : String)
    (payload : Option WebhookPayload) (db : DBState) (messagingOn : Bool)
    (outcome : DeviceTokenRow → Option String) (commitOk : Bool) :
    DBState × Nat × Bool :=
  match secret with
  | none => (db, 500, false)
  | some sec =>
    if sec = "" then (db, 500, false)
    else
      match signature with
      | none => (db, 400, false)
      | some sig =>
        if sig = "" then (db, 400, false)
        else
          let expected := mac sec body
          if sig ≠ expected then (db, 400, false)
          else
            match payload with
            | none => (db, 500, false)
            | some p =>
              if p.event = some "charge.success" then
                match p.order_id with
                | some oid =>
                  if oid = 0 then (db, 200, false)
                  else
                    let r := Routes.process_charge_success db oid messagingOn outcome commitOk
                    (r.1, 200, r.2)
                | none => (db, 200, false)
              else (db, 200, false)

/-- The verify-transaction response data relevant to the route: provider
status string and the order_id under metadata, none when absent. -/
structure VerifyData where
  status : String
  order_id : Option Int
deriving DecidableEq, Repr

/-- Model of the verify_payment route: on a provider response with status
success carrying an order id, run the shared charge-success processing;
otherwise leave the state unchanged.  The first component of the verify
response models response.get("status") of the gateway client. -/
def Routes.verify_payment (resp : Option VerifyData) (db : DBState)
    (messagingOn : Bool) (outcome : DeviceTokenRow → Option String)
    (commitOk : Bool) : DBState × Bool × Bool :=
  match resp with
  | none => (db, false, false)
  | some data =>
    if data.status = "success" then
      match data.order_id with
      | some oid =>
        let r := Routes.process_charge_success db oid messagingOn outcome commitOk
        (r.1, true, r.2)
      | none => (db, true, false)
    else (db, false, false)

/-- Fixture catalog and empty tables used by the concrete witnesses. -/
def fixDB : DBState :=
  ⟨[⟨1, "Tomato", mkRat 3000 1, true⟩, ⟨2, "Yam", mkRat 100 1, true⟩,
    ⟨3, "Rice", mkRat 500 1, false⟩], [], [], [], [], [], 1, 1, 1, 1, 1, 100⟩

/-- Fixture server state: fixture database, no stored files. -/
def fixSt : ServerState := ⟨fixDB, []⟩

/-- Fixture request matching the spec example: one item of product 1
(price 3000) with quantity 2, transfer payment, no payment proof. -/
def reqC1 : CreateOrderRequest :=
  ⟨"Ada", "080", none, some [⟨some (.vint 1), some (.vint 2)⟩], "transfer",
    some "dev1", none, none⟩

/-- The order row produced by reqC1 on fixSt. -/
def ordC1 : OrderRow :=
  ⟨1, "Ada", "080", none, mkRat 6000 1, none, some "dev1", "pending", 100⟩

/-- The server state produced by reqC1 on fixSt. -/
def stAfterC1 : ServerState :=
  ⟨⟨fixDB.products, [ordC1], [⟨1, 1, 1, "Tomato", mkRat 3000 1, 2, mkRat 6000 1⟩],
    [], [], [], 2, 2, 1, 1, 1, 100⟩, []⟩

/-- Fixture request whose single item carries the float product_id 2.5
(embedded as the rational 5/2) and quantity 1. -/
def reqC3 : CreateOrderRequest :=
  ⟨"Ada", "080", none, some [⟨some (.vnum (mkRat 5 2)), some (.vint 1)⟩],
    "transfer", some "dev1", none, none⟩

/-- The order row produced by reqC3 on fixSt: product_id 2.5 truncated to
product 2 (price 100). -/
def ordC3 : OrderRow :=
  ⟨1, "Ada", "080", none, mkRat 100 1, none, some "dev1", "pending", 100⟩

/-- Fixture payment-proof upload: a small PNG file. -/
def fileC10 : FileUpload := ⟨"proof.PNG", 5⟩

/-- Fixture request carrying a valid payment proof together with an empty
item list, so the file stage succeeds and item validation then fails. -/
def reqC10 : CreateOrderRequest :=
  ⟨"Ada", "080", none, some [], "transfer", none, none, some fileC10⟩

/-- The server state produced by reqC10 on fixSt: the file is stored, no
order row exists. -/
def stAfterC10 : ServerState := ⟨fixDB, ["u1.png"]⟩

/-- Fixture pending order used by the payment witnesses. -/
def ordC5 : OrderRow := ⟨5, "Ada", "080", none, mkRat 100 1, none, none, "pending", 50⟩

/-- Fixture database holding only the pending order 5. -/
def dbC5 : DBState := ⟨[], [ordC5], [], [], [], [], 6, 1, 1, 1, 1, 100⟩

/-- The database after confirming order 5. -/
def dbC5after : DBState :=
  ⟨[], [⟨5, "Ada", "080", none, mkRat 100 1, none, none, "confirmed", 50⟩],
    [], [], [], [], 6, 1, 1, 1, 1, 100⟩

/-- Does the delivery outcome of this token classify as token-invalid? -/
def tokenInvalid (out : DeviceTokenRow → Option String) (t : DeviceTokenRow) : Bool :=
  match out t with
  | some e => isInvalidTokenError e
  | none => false

/-- Ids of the device tokens removed during a fan-out with the given
outcomes. -/
def removedIds (out : DeviceTokenRow → Option String)
    (tokens : List DeviceTokenRow) : List Nat :=
  (tokens.filter (tokenInvalid out)).map fun t => t.id

/-- Nullify the token reference of a recipient when it lies in the given
id set. -/
def nullifyIds (ids : List Nat) (r : RecipientRow) : RecipientRow :=
  match r.fcm_token_id with
  | some i => if i ∈ ids then { r with fcm_token_id := none } else r
  | none => r

/-- The recipient rows recorded for the given tokens, with consecutive
autoincrement ids. -/
def mkRecipientRows (nid : Nat) : Nat → List DeviceTokenRow → List RecipientRow
  | _, [] => []
  | rid, t :: ts =>
    ⟨rid, nid, t.device_id, some t.id, false⟩ :: mkRecipientRows nid (rid + 1) ts

/-- Fixture admin token for the notification counterexample. -/
def cxTok : DeviceTokenRow := ⟨1, "d", "t", true⟩

/-- Fixture database holding only the admin token. -/
def cxDB : DBState := ⟨[], [], [], [cxTok], [], [], 1, 1, 2, 1, 1, 100⟩

/-- Fixture tokens and database for the C6 witness: token 1 delivers, the
send to token 2 raises a not-found error, and an old recipient row still
references token 2. -/
def wTok1 : DeviceTokenRow := ⟨1, "d1", "t1", true⟩

/-- Second fixture token, whose delivery fails as token-invalid. -/
def wTok2 : DeviceTokenRow := ⟨2, "d2", "t2", true⟩

/-- Fixture database for the C6 witness. -/
def wDB : DBState :=
  ⟨[], [], [], [wTok1, wTok2], [], [⟨7, 9, "dx", some 2, false⟩], 1, 1, 3, 4, 8, 100⟩

/-- Delivery outcomes for the C6 witness: token 2 fails as not-found. -/
def wOut : DeviceTokenRow → Option String :=
  fun t => if t.id = 2 then some "Requested entity was not found" else none

/-- The database produced by the C6 witness fan-out. -/
def wDB2 : DBState :=
  ⟨[], [], [], [wTok1], [⟨4, "T", "M", 1, 1⟩],
    [⟨7, 9, "dx", none, false⟩, ⟨8, 4, "d1", some 1, false⟩], 1, 1, 3, 5, 9, 100⟩

/-- The token-uniqueness invariant: no two device-token rows hold the same
push token. -/
def TokenUnique (db : DBState) : Prop :=
  (db.device_tokens.map fun d => d.fcm_token).Nodup

/-- Number of device-token rows holding the given push token. -/
def countToken (db : DBState) (token : String) : Nat :=
  (db.device_tokens.filter fun d => decide (d.fcm_token = token)).length

/-- One register_token request: the token, device id and admin flag it
carries, and the concurrent-duplicate-insert scenario it runs under. -/
structure RegOp where
  token : String
  device_id : String
  is_admin : Bool
  raced : Option (String × Bool)
deriving DecidableEq, Repr

/-- The database state after one registration. -/
def applyReg (db : DBState) (op : RegOp) : DBState :=
  (NotificationService.register_token db op.token op.device_id op.is_admin op.raced).1

/-- Fixture empty database for the registration claims. -/
def regDB : DBState := ⟨[], [], [], [], [], [], 1, 1, 1, 1, 1, 100⟩

/-- The registration sequence of the C7 witness: token t registered twice
with different device ids. -/
def regOps : List RegOp := [⟨"t", "d1", true, none⟩, ⟨"t", "d2", false, none⟩]

/-- Fixture pending order of the listing claims. -/
def ordP : OrderRow := ⟨1, "A", "1", none, mkRat 10 1, none, some "d", "pending", 10⟩

/-- Fixture confirmed order of the listing claims. -/
def ordQ : OrderRow := ⟨2, "B", "2", none, mkRat 20 1, none, some "d", "confirmed", 20⟩

/-- Fixture database with one pending and one confirmed order. -/
def db8 : DBState := ⟨[], [ordP, ordQ], [], [], [], [], 3, 1, 1, 1, 1, 100⟩

theorem ratAdd_eq (a b : Rat) : ratAdd a b = a + b := by
  have ha : ((a.den : Rat)) ≠ 0 := by exact_mod_cast a.den_nz
  have hb : ((b.den : Rat)) ≠ 0 := by exact_mod_cast b.den_nz
  rw [ratAdd, Rat.mkRat_eq_div]
  push_cast
  conv_rhs => rw [← Rat.num_div_den a, ← Rat.num_div_den b]
  rw [div_add_div _ _ ha hb]
  ring_nf

theorem ratMul_eq (a b : Rat) : ratMul a b = a * b := by
  rw [ratMul, Rat.mkRat_eq_div]
  push_cast
  conv_rhs => rw [← Rat.num_div_den a, ← Rat.num_div_den b]
  rw [div_mul_div_comm]

theorem ratOfInt_eq (n : Int) : ratOfInt n = (n : Rat) := by
  rw [ratOfInt, Rat.mkRat_eq_div]
  norm_num

theorem mem_insertByCreated {a o : OrderRow} {l : List OrderRow} :
    a ∈ insertByCreated o l ↔ a = o ∨ a ∈ l := by
  induction l with
  | nil => simp [insertByCreated]
  | cons x xs ih =>
    by_cases h : x.created_at ≤ o.created_at
    · simp [insertByCreated, h]
    · simp [insertByCreated, h, ih]
      tauto

theorem newestFirst_insertByCreated {o : OrderRow} {l : List OrderRow}
    (h : NewestFirst l) : NewestFirst (insertByCreated o l) := by
  induction l with
  | nil => simp [insertByCreated, NewestFirst]
  | cons x xs ih =>
    rcases List.pairwise_cons.mp h with ⟨hx, hxs⟩
    show NewestFirst
      (if x.created_at ≤ o.created_at then o :: x :: xs else x :: insertByCreated o xs)
    by_cases hc : x.created_at ≤ o.created_at
    · rw [if_pos hc]
      refine List.pairwise_cons.mpr ⟨?_, h⟩
      intro y hy
      rcases List.mem_cons.mp hy with rfl | hy
      · exact hc
      · exact le_trans (hx y hy) hc
    · rw [if_neg hc]
      refine List.pairwise_cons.mpr ⟨?_, ih hxs⟩
      intro y hy
      rcases mem_insertByCreated.mp hy with rfl | hy
      · omega
      · exact hx y hy

theorem newestFirst_sortByCreatedDesc (l : List OrderRow) :
    NewestFirst (sortByCreatedDesc l) := by
  induction l with
  | nil => exact List.Pairwise.nil
  | cons x xs ih => exact newestFirst_insertByCreated ih

theorem send_all_frame (db : DBState) (t m : String)
    (toks : List DeviceTokenRow) (out : DeviceTokenRow → Option String)
    (cOk : Bool) :
    (NotificationService.send_notification_to_all db t m toks out cOk).1.products = db.products ∧
    (NotificationService.send_notification_to_all db t m toks out cOk).1.orders = db.orders ∧
    (NotificationService.send_notification_to_all db t m toks out cOk).1.order_items = db.order_items ∧
    (NotificationService.send_notification_to_all db t m toks out cOk).1.next_order_id = db.next_order_id ∧
    (NotificationService.send_notification_to_all db t m toks out cOk).1.next_item_id = db.next_item_id ∧
    (NotificationService.send_notification_to_all db t m toks out cOk).1.now = db.now := by
  cases cOk <;> simp [NotificationService.send_notification_to_all]

theorem send_admin_frame (db : DBState) (t m : String) (ru : Option String)
    (mOn : Bool) (out : DeviceTokenRow → Option String) (cOk : Bool) :
    (NotificationService.send_notification_to_admin db t m ru mOn out cOk).1.products = db.products ∧
    (NotificationService.send_notification_to_admin db t m ru mOn out cOk).1.orders = db.orders ∧
    (NotificationService.send_notification_to_admin db t m ru mOn out cOk).1.order_items = db.order_items ∧
    (NotificationService.send_notification_to_admin db t m ru mOn out cOk).1.next_order_id = db.next_order_id ∧
    (NotificationService.send_notification_to_admin db t m ru mOn out cOk).1.next_item_id = db.next_item_id ∧
    (NotificationService.send_notification_to_admin db t m ru mOn out cOk).1.now = db.now := by
  rw [NotificationService.send_notification_to_admin]
  cases mOn
  · simp
  · simp only [if_true]
    by_cases he : (db.device_tokens.filter fun d => d.is_admin).isEmpty
    · simp [he]
    · simp only [he, if_neg, Bool.false_eq_true, not_false_eq_true]
      exact send_all_frame db t m _ out cOk

theorem mkItemRows_subtotals (oid : Nat) (rows : List PendingItem) :
    ∀ iid, (mkItemRows oid iid rows).map (fun r => r.subtotal) =
      rows.map fun r => r.subtotal := by
  induction rows with
  | nil => intro iid; rfl
  | cons r rest ih => intro iid; simp [mkItemRows, ih]

theorem mkItemRows_length (oid : Nat) (rows : List PendingItem) :
    ∀ iid, (mkItemRows oid iid rows).length = rows.length := by
  induction rows with
  | nil => intro iid; rfl
  | cons r rest ih => intro iid; simp [mkItemRows, ih]

theorem mkItemRows_mem (oid : Nat) (rows : List PendingItem) :
    ∀ iid r, r ∈ mkItemRows oid iid rows →
      r.order_id = oid ∧ ∃ pr ∈ rows, r.product_id = pr.product_id ∧
        r.product_name = pr.product_name ∧ r.product_price = pr.product_price ∧
        r.quantity = pr.quantity ∧ r.subtotal = pr.subtotal := by
  induction rows with
  | nil => intro iid r hr; simp [mkItemRows] at hr
  | cons p rest ih =>
    intro iid r hr
    rw [mkItemRows] at hr
    rcases List.mem_cons.mp hr with rfl | hr
    · refine ⟨rfl, p, List.mem_cons_self _ _, by simp⟩
    · rcases ih (iid + 1) r hr with ⟨h1, pr, hpr, h2⟩
      exact ⟨h1, pr, List.mem_cons_of_mem _ hpr, h2⟩

theorem process_items_ok {products : List ProductRow} :
    ∀ (items : List OrderItemInput) (total : Rat) (acc : List PendingItem)
      (T : Rat) (rows : List PendingItem),
    Routes.process_items products items total acc = .ok (T, rows) →
    ∃ new : List PendingItem,
      rows = acc ++ new ∧
      T = total + (new.map fun r => r.subtotal).sum ∧
      new.length = items.length ∧
      (∀ r ∈ new, r.subtotal = r.product_price * (r.quantity : Rat) ∧
        0 < r.quantity ∧ r.quantity ≤ 1000 ∧
        ∃ pr ∈ products, pr.id = r.product_id ∧ pr.name = r.product_name ∧
          pr.price = r.product_price ∧ pr.available = true ∧ 0 < pr.price) ∧
      (∀ it ∈ items, ∃ p q : Int,
        pyToInt (it.product_id.getD .vnone) = some p ∧ 0 < p ∧
        pyToInt (it.quantity.getD .vnone) = some q ∧ 0 < q ∧ q ≤ 1000) := by
  intro items
  induction items with
  | nil =>
    intro total acc T rows h
    rw [Routes.process_items] at h
    simp only [Except.ok.injEq, Prod.mk.injEq] at h
    exact ⟨[], by simp [← h.1, ← h.2]⟩
  | cons it rest ih =>
    intro total acc T rows h
    rw [Routes.process_items] at h
    by_cases h1 : ¬ pyTruthy (it.product_id.getD .vnone) ∨ ¬ pyTruthy (it.quantity.getD .vnone)
    · rw [if_pos h1] at h; simp at h
    rw [if_neg h1] at h
    cases hp : pyToInt (it.product_id.getD .vnone) with
    | none => simp [hp] at h
    | some p =>
    simp only [hp] at h
    by_cases hp0 : p ≤ 0
    · rw [if_pos hp0] at h; simp at h
    rw [if_neg hp0] at h
    cases hq : pyToInt (it.quantity.getD .vnone) with
    | none => simp [hq] at h
    | some q =>
    simp only [hq] at h
    by_cases hq0 : q ≤ 0
    · rw [if_pos hq0] at h; simp at h
    rw [if_neg hq0] at h
    by_cases hq1 : q > 1000
    · rw [if_pos hq1] at h; simp at h
    rw [if_neg hq1] at h
    cases hf : products.find? (fun pr => decide ((pr.id : Int) = p)) with
    | none => simp [hf] at h
    | some product =>
    simp only [hf] at h
    by_cases hav : ¬ product.available
    · rw [if_pos hav] at h; simp at h
    rw [if_neg hav] at h
    by_cases hpr : product.price ≤ 0
    · rw [if_pos hpr] at h; simp at h
    rw [if_neg hpr] at h
    by_cases hsub : ratMul product.price (ratOfInt q) ≤ 0
    · rw [if_pos hsub] at h; simp at h
    rw [if_neg hsub] at h
    rcases ih _ _ _ _ h with ⟨new', hrows, hT, hlen, hmem, hits⟩
    refine ⟨⟨product.id, product.name, product.price, q, ratMul product.price (ratOfInt q)⟩ :: new',
      ?_, ?_, ?_, ?_, ?_⟩
    · rw [hrows]; simp
    · rw [hT, ratAdd_eq]
      simp only [List.map_cons, List.sum_cons]
      ring
    · simp [hlen]
    · intro r hr
      rcases List.mem_cons.mp hr with rfl | hr
      · refine ⟨by simp [ratMul_eq, ratOfInt_eq], by simp; omega, by simp; omega,
          product, List.mem_of_find?_eq_some hf, rfl, rfl, rfl, ?_, not_le.mp hpr⟩
        simpa using hav
      · exact hmem r hr
    · intro i hi
      rcases List.mem_cons.mp hi with rfl | hi
      · exact ⟨p, q, hp, by omega, hq, by omega, by omega⟩
      · exact hits i hi

theorem file_step_db (uuid : String) (wk : Bool) (st : ServerState)
    (pf : Option FileUpload) (su : ServerState × Option String)
    (h : Routes.file_step uuid wk st pf = .ok su) : su.1.db = st.db := by
  cases pf with
  | none =>
    rw [Routes.file_step] at h
    injection h with h2
    subst h2
    rfl
  | some f =>
    rw [Routes.file_step] at h
    by_cases h1 : f.size > 10485760
    · rw [if_pos h1] at h; simp at h
    rw [if_neg h1] at h
    by_cases h2 : f.size = 0
    · rw [if_pos h2] at h; simp at h
    rw [if_neg h2] at h
    by_cases h3 : ¬ (allowedExtensions.contains (pathSuffix f.filename))
    · rw [if_pos h3] at h; simp at h
    rw [if_neg h3] at h
    cases wk with
    | true =>
      simp only [if_true] at h
      injection h with h4
      subst h4
      rfl
    | false => simp at h

theorem file_step_some (uuid : String) (wk : Bool) (st : ServerState)
    (f : FileUpload) (su : ServerState × Option String)
    (h : Routes.file_step uuid wk st (some f) = .ok su) :
    su.1.files = st.files ++ [uuid ++ pathSuffix f.filename] ∧
    su.2 = some ("/uploads/payment_proofs/" ++ (uuid ++ pathSuffix f.filename)) := by
  rw [Routes.file_step] at h
  by_cases h1 : f.size > 10485760
  · rw [if_pos h1] at h; simp at h
  rw [if_neg h1] at h
  by_cases h2 : f.size = 0
  · rw [if_pos h2] at h; simp at h
  rw [if_neg h2] at h
  by_cases h3 : ¬ (allowedExtensions.contains (pathSuffix f.filename))
  · rw [if_pos h3] at h; simp at h
  rw [if_neg h3] at h
  cases wk with
  | true =>
    simp only [if_true] at h
    injection h with h4
    subst h4
    exact ⟨rfl, rfl⟩
  | false => simp at h

theorem create_order_ok_spec (uuid : String) (fw oc m : Bool)
    (out : DeviceTokenRow → Option String) (nc : Bool)
    (st : ServerState) (req : CreateOrderRequest) (st' : ServerState)
    (o : OrderRow)
    (h : Routes.create_order uuid fw oc m out nc st req = (st', .ok o)) :
    ∃ (items_list : List OrderItemInput) (su : ServerState × Option String)
      (total : Rat) (rows : List PendingItem),
      req.items = some items_list ∧
      Routes.file_step uuid fw st req.payment_proof = .ok su ∧
      Routes.process_items su.1.db.products items_list 0 [] = .ok (total, rows) ∧
      0 < total ∧ total ≤ 10000000 ∧
      o = ⟨su.1.db.next_order_id, req.customer_name, req.customer_phone,
        pyNonEmpty req.delivery_address, total, su.2,
        pyOrOpt req.device_id req.cookie_device_id, "pending", su.1.db.now⟩ ∧
      st'.db.orders = su.1.db.orders ++ [o] ∧
      st'.db.order_items = su.1.db.order_items ++ mkItemRows o.id su.1.db.next_item_id rows ∧
      st'.files = su.1.files ∧
      st'.db.products = su.1.db.products := by
  rw [Routes.create_order] at h
  cases hri : req.items with
  | none => simp [hri] at h
  | some items_list =>
  simp only [hri] at h
  cases hfs : Routes.file_step uuid fw st req.payment_proof with
  | error e => simp [hfs] at h
  | ok su =>
  simp only [hfs] at h
  cases hpi : Routes.process_items su.1.db.products items_list 0 [] with
  | error e => simp [hpi] at h
  | ok tr =>
  simp only [hpi] at h
  by_cases ht0 : tr.1 ≤ 0
  · rw [if_pos ht0] at h; simp at h
  rw [if_neg ht0] at h
  by_cases ht1 : tr.1 > 10000000
  · rw [if_pos ht1] at h; simp at h
  rw [if_neg ht1] at h
  rw [OrderService.create_order] at h
  cases oc with
  | false => simp at h
  | true =>
  simp only [if_true] at h
  by_cases hpm : (decide (req.payment_method = "transfer") && m) = true
  · rw [if_pos hpm] at h
    injection h with hst hok
    injection hok with ho
    subst ho
    subst hst
    refine ⟨items_list, su, tr.1, tr.2, rfl, rfl, by simpa using hpi,
      not_le.mp ht0, not_lt.mp ht1, rfl, ?_, ?_, rfl, ?_⟩
    · rw [(send_admin_frame _ _ _ _ _ _ _).2.1]
    · rw [(send_admin_frame _ _ _ _ _ _ _).2.2.1]
    · rw [(send_admin_frame _ _ _ _ _ _ _).1]
  · rw [if_neg hpm] at h
    injection h with hst hok
    injection hok with ho
    subst ho
    subst hst
    exact ⟨items_list, su, tr.1, tr.2, rfl, rfl, by simpa using hpi,
      not_le.mp ht0, not_lt.mp ht1, rfl, rfl, rfl, rfl, rfl⟩

theorem create_order_error_spec (uuid : String) (fw oc m : Bool)
    (out : DeviceTokenRow → Option String) (nc : Bool)
    (st : ServerState) (req : CreateOrderRequest) (st' : ServerState)
    (e : ApiError)
    (h : Routes.create_order uuid fw oc m out nc st req = (st', .error e)) :
    st'.db = st.db ∧
    (req.items = none → st' = st) ∧
    (∀ su, req.items ≠ none →
      Routes.file_step uuid fw st req.payment_proof = .ok su → st' = su.1) := by
  rw [Routes.create_order] at h
  cases hri : req.items with
  | none =>
    simp only [hri] at h
    injection h with hst
    subst hst
    exact ⟨rfl, fun _ => rfl, fun su hne _ => absurd rfl hne⟩
  | some items_list =>
  simp only [hri] at h
  cases hfs : Routes.file_step uuid fw st req.payment_proof with
  | error e2 =>
    simp only [hfs] at h
    injection h with hst
    subst hst
    refine ⟨rfl, by simp, ?_⟩
    intro su _ hok
    simp at hok
  | ok su =>
  simp only [hfs] at h
  have hdb : su.1.db = st.db := file_step_db _ _ _ _ _ hfs
  have hrest : ∀ su2 : ServerState × Option String, some items_list ≠ none →
      (Except.ok su : Except ApiError (ServerState × Option String)) = Except.ok su2 →
      su.1 = su2.1 := by
    intro su2 _ hok
    injection hok with h2
    rw [h2]
  cases hpi : Routes.process_items su.1.db.products items_list 0 [] with
  | error e3 =>
    simp only [hpi] at h
    injection h with hst
    subst hst
    exact ⟨hdb, by simp, hrest⟩
  | ok tr =>
  simp only [hpi] at h
  by_cases ht0 : tr.1 ≤ 0
  · rw [if_pos ht0] at h
    injection h with hst
    subst hst
    exact ⟨hdb, by simp, hrest⟩
  rw [if_neg ht0] at h
  by_cases ht1 : tr.1 > 10000000
  · rw [if_pos ht1] at h
    injection h with hst
    subst hst
    exact ⟨hdb, by simp, hrest⟩
  rw [if_neg ht1] at h
  rw [OrderService.create_order] at h
  cases oc with
  | false =>
    simp only [Bool.false_eq_true, if_false] at h
    injection h with hst
    subst hst
    exact ⟨hdb, by simp, hrest⟩
  | true =>
  simp only [if_true] at h
  by_cases hpm : (decide (req.payment_method = "transfer") && m) = true
  · rw [if_pos hpm] at h
    injection h with hst hok
    cases hok
  · rw [if_neg hpm] at h
    injection h with hst hok
    cases hok

/-- C1: for every create_order request that succeeds, the persisted order
has status pending, its total_amount equals the sum of the subtotals of
the order_items rows created for it, and each such row stores subtotal =
product_price * quantity where product_price is the catalog price of an
available product at creation time. -/
theorem C1_create_order_totals (uuid : String) (fw oc m : Bool)
    (out : DeviceTokenRow → Option String) (nc : Bool)
    (st : ServerState) (req : CreateOrderRequest) (st' : ServerState)
    (o : OrderRow)
    (h : Routes.create_order uuid fw oc m out nc st req = (st', .ok o)) :
    o.status = "pending" ∧
    ∃ new : List OrderItemRow,
      st'.db.order_items = st.db.order_items ++ new ∧
      o.total_amount = (new.map fun r => r.subtotal).sum ∧
      ∀ r ∈ new, r.order_id = o.id ∧
        r.subtotal = r.product_price * (r.quantity : Rat) ∧
        ∃ pr ∈ st.db.products, pr.id = r.product_id ∧
          pr.price = r.product_price ∧ pr.available = true := by
  obtain ⟨il, su, total, rows, hri, hfs, hpi, h0, h1, ho, hor, hoi, hfl, hprod⟩ :=
    create_order_ok_spec _ _ _ _ _ _ _ _ _ _ h
  have hdb : su.1.db = st.db := file_step_db _ _ _ _ _ hfs
  obtain ⟨new', hrows, hT, hlen, hmem, hits⟩ := process_items_ok il 0 [] total rows hpi
  rw [List.nil_append] at hrows
  subst hrows
  refine ⟨by rw [ho], mkItemRows o.id su.1.db.next_item_id rows, ?_, ?_, ?_⟩
  · rw [hoi, hdb]
  · rw [mkItemRows_subtotals, ho]
    simp [hT]
  · intro r hr
    obtain ⟨hrid, pr, hprmem, hid, hnm, hprice, hqty, hsub⟩ :=
      mkItemRows_mem o.id rows su.1.db.next_item_id r hr
    obtain ⟨hsub2, hq0, hq1, cat, hcatmem, hcat⟩ := hmem pr hprmem
    refine ⟨hrid, ?_, cat, ?_, ?_, ?_, ?_⟩
    · rw [hsub, hsub2, hprice, hqty]
    · rw [← hdb]; exact hcatmem
    · rw [hid]; exact hcat.1
    · rw [hprice]; exact hcat.2.2.1
    · exact hcat.2.2.2.1

/-- Witness for C1 at the spec example on the fixture state: one item of
product 1 (price 3000) with quantity 2 gives total 6000, status pending. -/
theorem C1_create_order_totals_witness :
    (ordC1.status = "pending" ∧
      ∃ new : List OrderItemRow,
        stAfterC1.db.order_items = fixSt.db.order_items ++ new ∧
        ordC1.total_amount = (new.map fun r => r.subtotal).sum ∧
        ∀ r ∈ new, r.order_id = ordC1.id ∧
          r.subtotal = r.product_price * (r.quantity : Rat) ∧
          ∃ pr ∈ fixSt.db.products, pr.id = r.product_id ∧
            pr.price = r.product_price ∧ pr.available = true) ∧
    ordC1.total_amount = mkRat 6000 1 :=
  ⟨C1_create_order_totals "u1" true true false (fun _ => none) true fixSt reqC1
      stAfterC1 ordC1 (by decide), by decide⟩

/-- C2: create_order persists the order row and its item rows as one
atomic unit: on any error nothing is persisted, and on success the order
row arrives together with a nonempty batch of item rows that all reference
its id. -/
theorem C2_create_order_atomicity (uuid : String) (fw oc m : Bool)
    (out : DeviceTokenRow → Option String) (nc : Bool)
    (st : ServerState) (req : CreateOrderRequest) (st' : ServerState)
    (res : Except ApiError OrderRow)
    (h : Routes.create_order uuid fw oc m out nc st req = (st', res)) :
    (∀ e, res = .error e → st'.db.orders = st.db.orders ∧
      st'.db.order_items = st.db.order_items) ∧
    (∀ o, res = .ok o → ∃ new : List OrderItemRow, new ≠ [] ∧
      st'.db.orders = st.db.orders ++ [o] ∧
      st'.db.order_items = st.db.order_items ++ new ∧
      (∀ r ∈ new, r.order_id = o.id) ∧ o.status = "pending") := by
  constructor
  · intro e he
    rw [he] at h
    obtain ⟨hdb, -, -⟩ := create_order_error_spec _ _ _ _ _ _ _ _ _ _ h
    exact ⟨by rw [hdb], by rw [hdb]⟩
  · intro o hoo
    rw [hoo] at h
    obtain ⟨il, su, total, rows, hri, hfs, hpi, h0, h1, ho, hor, hoi, hfl, hprod⟩ :=
      create_order_ok_spec _ _ _ _ _ _ _ _ _ _ h
    have hdb : su.1.db = st.db := file_step_db _ _ _ _ _ hfs
    obtain ⟨new', hrows, hT, hlen, hmem, hits⟩ := process_items_ok il 0 [] total rows hpi
    rw [List.nil_append] at hrows
    subst hrows
    have hrows_ne : rows ≠ [] := by
      intro hr0
      rw [hr0] at hT
      simp at hT
      rw [hT] at h0
      exact lt_irrefl 0 h0
    refine ⟨mkItemRows o.id su.1.db.next_item_id rows, ?_,
      by rw [hor, hdb], by rw [hoi, hdb], ?_, by rw [ho]⟩
    · intro hmk
      apply hrows_ne
      have hl := mkItemRows_length o.id rows su.1.db.next_item_id
      rw [hmk] at hl
      exact List.length_eq_zero.mp hl.symm
    · intro r hr
      exact (mkItemRows_mem _ _ _ _ hr).1

/-- Witness for C2 at the spec example request on the fixture state. -/
theorem C2_create_order_atomicity_witness :
    ∃ new : List OrderItemRow, new ≠ [] ∧
      stAfterC1.db.orders = fixSt.db.orders ++ [ordC1] ∧
      stAfterC1.db.order_items = fixSt.db.order_items ++ new ∧
      (∀ r ∈ new, r.order_id = ordC1.id) ∧ ordC1.status = "pending" :=
  (C2_create_order_atomicity "u1" true true false (fun _ => none) true fixSt reqC1
    stAfterC1 (.ok ordC1) (by decide)).2 ordC1 rfl

/-- C3 (amended): create_order never persists anything on an error; an
empty item list is rejected with the 400 total-must-be-positive
ValidationError (once the payment-proof stage has passed); and an order is
created only when every item has product_id and quantity whose Python int
conversion succeeds with product_id positive and quantity in (0, 1000],
and the total lies in (0, 10000000].  A value whose int conversion
succeeds is accepted even when it is not an integer: a float product_id
such as 2.5 is truncated to 2 rather than rejected (see the
counterexample). -/
theorem C3_create_order_rejections (uuid : String) (fw oc m : Bool)
    (out : DeviceTokenRow → Option String) (nc : Bool)
    (st : ServerState) (req : CreateOrderRequest) (st' : ServerState)
    (res : Except ApiError OrderRow)
    (h : Routes.create_order uuid fw oc m out nc st req = (st', res)) :
    (∀ e, res = .error e → st'.db.orders = st.db.orders ∧
      st'.db.order_items = st.db.order_items) ∧
    (req.items = some [] →
      ∀ su, Routes.file_step uuid fw st req.payment_proof = .ok su →
        res = .error ⟨400, "Order total must be greater than 0"⟩) ∧
    (∀ o, res = .ok o → ∃ il, req.items = some il ∧ il ≠ [] ∧
      0 < o.total_amount ∧ o.total_amount ≤ 10000000 ∧
      ∀ it ∈ il, ∃ p q : Int,
        pyToInt (it.product_id.getD .vnone) = some p ∧ 0 < p ∧
        pyToInt (it.quantity.getD .vnone) = some q ∧ 0 < q ∧ q ≤ 1000) := by
  refine ⟨?_, ?_, ?_⟩
  · intro e he
    rw [he] at h
    obtain ⟨hdb, -, -⟩ := create_order_error_spec _ _ _ _ _ _ _ _ _ _ h
    exact ⟨by rw [hdb], by rw [hdb]⟩
  · intro hempty su hsu
    rw [Routes.create_order] at h
    simp only [hempty] at h
    simp only [hsu] at h
    simp only [Routes.process_items] at h
    rw [if_pos (le_refl (0 : Rat))] at h
    injection h with h1 h2
    exact h2.symm
  · intro o hoo
    rw [hoo] at h
    obtain ⟨il, su, total, rows, hri, hfs, hpi, h0, h1, ho, hor, hoi, hfl, hprod⟩ :=
      create_order_ok_spec _ _ _ _ _ _ _ _ _ _ h
    obtain ⟨new', hrows, hT, hlen, hmem, hits⟩ := process_items_ok il 0 [] total rows hpi
    rw [List.nil_append] at hrows
    subst hrows
    have hrows_ne : rows ≠ [] := by
      intro hr0
      rw [hr0] at hT
      simp at hT
      rw [hT] at h0
      exact lt_irrefl 0 h0
    refine ⟨il, hri, ?_, by rw [ho]; exact h0, by rw [ho]; exact h1, hits⟩
    intro hil
    rw [hil] at hlen
    exact hrows_ne (List.length_eq_zero.mp (by rw [hlen]; rfl))

/-- Counterexample to C3 as stated: a request whose item carries the
non-integer product_id 2.5 (denominator 2, so not an integer) is not
rejected with a ValidationError; the Python int constructor truncates it
to 2 and the order is created against product 2. -/
theorem C3_counterexample :
    (Routes.create_order "u1" true true false (fun _ => none) true fixSt reqC3).2 =
      .ok ordC3 ∧
    (∀ e : ApiError,
      (Routes.create_order "u1" true true false (fun _ => none) true fixSt reqC3).2 ≠
        .error e) ∧
    (mkRat 5 2).den = 2 := by
  have h1 : (Routes.create_order "u1" true true false (fun _ => none) true fixSt reqC3).2 =
      .ok ordC3 := by decide
  refine ⟨h1, ?_, by decide⟩
  intro e he
  rw [h1] at he
  cases he

/-- Witness for C3 at the spec example request on the fixture state. -/
theorem C3_create_order_rejections_witness :
    ∃ il, reqC1.items = some il ∧ il ≠ [] ∧
      0 < ordC1.total_amount ∧ ordC1.total_amount ≤ 10000000 ∧
      ∀ it ∈ il, ∃ p q : Int,
        pyToInt (it.product_id.getD .vnone) = some p ∧ 0 < p ∧
        pyToInt (it.quantity.getD .vnone) = some q ∧ 0 < q ∧ q ≤ 1000 :=
  (C3_create_order_rejections "u1" true true false (fun _ => none) true fixSt reqC1
    stAfterC1 (.ok ordC1) (by decide)).2.2 ordC1 rfl

/-- C9: the result of create_order and every persisted order datum are
independent of the admin-notification delivery outcomes and of whether the
notification commit raises: a notification error is swallowed and never
surfaces as an order-creation failure, and on success the committed order
is among the stored orders. -/
theorem C9_notification_failure_nonfatal (uuid : String) (fw oc m : Bool)
    (out1 out2 : DeviceTokenRow → Option String) (nc1 nc2 : Bool)
    (st : ServerState) (req : CreateOrderRequest) :
    (Routes.create_order uuid fw oc m out1 nc1 st req).2 =
      (Routes.create_order uuid fw oc m out2 nc2 st req).2 ∧
    (Routes.create_order uuid fw oc m out1 nc1 st req).1.db.orders =
      (Routes.create_order uuid fw oc m out2 nc2 st req).1.db.orders ∧
    (Routes.create_order uuid fw oc m out1 nc1 st req).1.db.order_items =
      (Routes.create_order uuid fw oc m out2 nc2 st req).1.db.order_items ∧
    (Routes.create_order uuid fw oc m out1 nc1 st req).1.files =
      (Routes.create_order uuid fw oc m out2 nc2 st req).1.files ∧
    (∀ o, (Routes.create_order uuid fw oc m out1 nc1 st req).2 = .ok o →
      o ∈ (Routes.create_order uuid fw oc m out1 nc1 st req).1.db.orders) := by
  simp only [Routes.create_order]
  cases hri : req.items with
  | none => simp [hri]
  | some il =>
  simp only [hri]
  cases hfs : Routes.file_step uuid fw st req.payment_proof with
  | error e => simp [hfs]
  | ok su =>
  simp only [hfs]
  cases hpi : Routes.process_items su.1.db.products il 0 [] with
  | error e => simp [hpi]
  | ok tr =>
  simp only [hpi]
  by_cases ht0 : tr.1 ≤ 0
  · simp [ht0]
  by_cases ht1 : tr.1 > 10000000
  · simp [ht0, ht1]
  simp only [if_neg ht0, if_neg ht1]
  rw [OrderService.create_order]
  cases oc with
  | false => simp
  | true =>
  simp only [if_true]
  by_cases hpm : (decide (req.payment_method = "transfer") && m) = true
  · simp only [if_pos hpm]
    refine ⟨by simp, ?_, ?_, by simp, ?_⟩
    · rw [(send_admin_frame _ _ _ _ _ _ _).2.1, (send_admin_frame _ _ _ _ _ _ _).2.1]
    · rw [(send_admin_frame _ _ _ _ _ _ _).2.2.1, (send_admin_frame _ _ _ _ _ _ _).2.2.1]
    · intro o ho
      rw [(send_admin_frame _ _ _ _ _ _ _).2.1]
      simp only [Except.ok.injEq] at ho
      subst ho
      simp
  · simp only [if_neg hpm]
    refine ⟨by simp, by simp, by simp, by simp, ?_⟩
    intro o ho
    simp only [Except.ok.injEq] at ho
    subst ho
    simp

/-- C10 (implicit): the payment proof is validated and written before the
item list is validated, so when a request carries a valid proof and its
items then fail validation, the stored file remains on disk while no order
or item row is created, and the file URL is referenced by no order
(assuming the generated UUID filename is fresh). -/
theorem C10_file_persists_on_item_failure (uuid : String) (fw oc m : Bool)
    (out : DeviceTokenRow → Option String) (nc : Bool)
    (st : ServerState) (req : CreateOrderRequest) (st' : ServerState)
    (e : ApiError) (f : FileUpload) (il : List OrderItemInput)
    (su : ServerState × Option String)
    (hf : req.payment_proof = some f)
    (hil : req.items = some il)
    (hsu : Routes.file_step uuid fw st req.payment_proof = .ok su)
    (h : Routes.create_order uuid fw oc m out nc st req = (st', .error e))
    (hfresh : ∀ o ∈ st.db.orders, o.payment_proof_url ≠
      some ("/uploads/payment_proofs/" ++ (uuid ++ pathSuffix f.filename))) :
    st'.files = st.files ++ [uuid ++ pathSuffix f.filename] ∧
    st'.db.orders = st.db.orders ∧
    st'.db.order_items = st.db.order_items ∧
    ∀ o ∈ st'.db.orders, o.payment_proof_url ≠
      some ("/uploads/payment_proofs/" ++ (uuid ++ pathSuffix f.filename)) := by
  obtain ⟨hdb, -, hsu1⟩ := create_order_error_spec _ _ _ _ _ _ _ _ _ _ h
  have hst' : st' = su.1 := hsu1 su (by rw [hil]; simp) hsu
  rw [hf] at hsu
  obtain ⟨hfiles, -⟩ := file_step_some _ _ _ _ _ hsu
  have hdb2 : su.1.db = st.db := file_step_db uuid fw st (some f) su hsu
  subst hst'
  refine ⟨hfiles, by rw [hdb2], by rw [hdb2], ?_⟩
  intro o ho
  rw [hdb2] at ho
  exact hfresh o ho

/-- Witness for C10 on the fixture state: a valid PNG proof with an empty
item list leaves the file stored and no order rows. -/
theorem C10_file_persists_witness :
    stAfterC10.files = fixSt.files ++ ["u1" ++ pathSuffix "proof.PNG"] ∧
    stAfterC10.db.orders = fixSt.db.orders ∧
    stAfterC10.db.order_items = fixSt.db.order_items ∧
    ∀ o ∈ stAfterC10.db.orders, o.payment_proof_url ≠
      some ("/uploads/payment_proofs/" ++ ("u1" ++ pathSuffix "proof.PNG")) :=
  C10_file_persists_on_item_failure "u1" true true false (fun _ => none) true
    fixSt reqC10 stAfterC10 ⟨400, "Order total must be greater than 0"⟩ fileC10 []
    (stAfterC10, some "/uploads/payment_proofs/u1.png")
    (by decide) (by decide) (by decide) (by decide) (by decide)

theorem find?_update_status (l : List OrderRow) (nid : Nat) (status : String)
    (oidI : Int) :
    ((l.map fun x => if x.id = nid then { x with status := status } else x).find?
      fun x => decide ((x.id : Int) = oidI)) =
    (l.find? fun x => decide ((x.id : Int) = oidI)).map
      fun x => if x.id = nid then { x with status := status } else x := by
  rw [List.find?_map]
  have hpf : ((fun x : OrderRow => decide ((x.id : Int) = oidI)) ∘
      fun x => if x.id = nid then { x with status := status } else x) =
      fun x : OrderRow => decide ((x.id : Int) = oidI) := by
    funext x
    by_cases hx : x.id = nid <;> simp [Function.comp, hx]
  rw [hpf]

/-- C5: processing a successful-charge event for a known order confirms it
exactly once: a pending order transitions to confirmed with the admin
notification attempted exactly when messaging is configured, an order in
any other status is left untouched with no notification, a missing order
changes nothing, and re-processing the same event against the resulting
state is always a no-op that sends no notification. -/
theorem C5_charge_success_idempotent (db : DBState) (oid : Int) (mOn : Bool)
    (out : DeviceTokenRow → Option String) (cOk : Bool) (db1 : DBState)
    (n1 : Bool)
    (h : Routes.process_charge_success db oid mOn out cOk = (db1, n1)) :
    (∀ o, db.orders.find? (fun x => decide ((x.id : Int) = oid)) = some o →
      o.status = "pending" →
      db1.orders.find? (fun x => decide ((x.id : Int) = oid)) =
        some { o with status := "confirmed" } ∧ n1 = mOn) ∧
    (∀ o, db.orders.find? (fun x => decide ((x.id : Int) = oid)) = some o →
      o.status ≠ "pending" → db1 = db ∧ n1 = false) ∧
    (db.orders.find? (fun x => decide ((x.id : Int) = oid)) = none →
      db1 = db ∧ n1 = false) ∧
    (∀ mOn2 out2 cOk2,
      Routes.process_charge_success db1 oid mOn2 out2 cOk2 = (db1, false)) := by
  rw [Routes.process_charge_success] at h
  cases hfind : db.orders.find? (fun x => decide ((x.id : Int) = oid)) with
  | none =>
    simp only [hfind] at h
    obtain ⟨h1, h2⟩ : db = db1 ∧ false = n1 := by
      constructor
      · exact congrArg Prod.fst h
      · exact congrArg Prod.snd h
    subst h1
    subst h2
    refine ⟨?_, ?_, fun _ => ⟨rfl, rfl⟩, ?_⟩
    · intro o ho; exact Option.noConfusion ho
    · intro o ho; exact Option.noConfusion ho
    · intro m2 o2 c2
      rw [Routes.process_charge_success]
      simp only [hfind]
  | some o0 =>
  simp only [hfind] at h
  by_cases hp : o0.status = "pending"
  · rw [if_pos hp] at h
    have hupd : (OrderService.update_order_status db o0.id "confirmed").orders.find?
        (fun x => decide ((x.id : Int) = oid)) =
        some { o0 with status := "confirmed" } := by
      show ((db.orders.map fun x =>
        if x.id = o0.id then { x with status := "confirmed" } else x).find?
          fun x => decide ((x.id : Int) = oid)) = _
      rw [find?_update_status, hfind]
      simp
    have hdb1 : db1.orders.find? (fun x => decide ((x.id : Int) = oid)) =
        some { o0 with status := "confirmed" } ∧ n1 = mOn := by
      cases mOn with
      | true =>
        simp only [if_true] at h
        obtain ⟨h1, h2⟩ : (NotificationService.send_notification_to_admin
            (OrderService.update_order_status db o0.id "confirmed")
            "New Paystack Order" "New order verified" (some "/admin/orders")
            true out cOk).1 = db1 ∧ true = n1 := by
          constructor
          · exact congrArg Prod.fst h
          · exact congrArg Prod.snd h
        subst h1
        subst h2
        rw [(send_admin_frame _ _ _ _ _ _ _).2.1]
        exact ⟨hupd, rfl⟩
      | false =>
        simp only [Bool.false_eq_true, if_false] at h
        obtain ⟨h1, h2⟩ : OrderService.update_order_status db o0.id "confirmed" = db1 ∧
            false = n1 := by
          constructor
          · exact congrArg Prod.fst h
          · exact congrArg Prod.snd h
        subst h1
        subst h2
        exact ⟨hupd, rfl⟩
    refine ⟨?_, ?_, ?_, ?_⟩
    · intro o ho _
      injection ho with ho2
      subst ho2
      exact hdb1
    · intro o ho hne
      injection ho with ho2
      subst ho2
      exact absurd hp hne
    · intro hnone; exact Option.noConfusion hnone
    · intro m2 o2 c2
      rw [Routes.process_charge_success]
      simp only [hdb1.1]
      rw [if_neg (by simp)]
  · rw [if_neg hp] at h
    obtain ⟨h1, h2⟩ : db = db1 ∧ false = n1 := by
      constructor
      · exact congrArg Prod.fst h
      · exact congrArg Prod.snd h
    subst h1
    subst h2
    refine ⟨?_, ?_, ?_, ?_⟩
    · intro o ho hpend
      injection ho with ho2
      subst ho2
      exact absurd hpend hp
    · intro o ho _; exact ⟨rfl, rfl⟩
    · intro hnone; exact Option.noConfusion hnone
    · intro m2 o2 c2
      rw [Routes.process_charge_success]
      simp only [hfind]
      rw [if_neg hp]

/-- Witness for C5: confirming pending order 5 once, then re-processing
the same event against the result, which is a no-op. -/
theorem C5_charge_success_idempotent_witness :
    (dbC5after.orders.find? (fun x => decide ((x.id : Int) = (5 : Int))) =
      some { ordC5 with status := "confirmed" } ∧ true = true) ∧
    Routes.process_charge_success dbC5after 5 true (fun _ => none) true =
      (dbC5after, false) := by
  have H := C5_charge_success_idempotent dbC5 5 true (fun _ => none) true
    dbC5after true (by decide)
  exact ⟨H.1 ordC5 (by decide) (by decide), H.2.2.2 true (fun _ => none) true⟩

/-- C4: the webhook handler rejects, with the database untouched and no
notification, any delivery whose server secret is missing or empty (500),
whose signature header is missing or empty (400), or whose signature
differs from the HMAC digest of the secret and raw body (400) - even when
the payload claims a successful charge. -/
theorem C4_webhook_signature_gate (mac : String → String → String)
    (secret signature : Option String) (body : String)
    (payload : Option WebhookPayload) (db : DBState) (mOn : Bool)
    (out : DeviceTokenRow → Option String) (cOk : Bool)
    (db2 : DBState) (code : Nat) (notified : Bool)
    (h : Routes.paystack_webhook mac secret signature body payload db mOn out cOk =
      (db2, code, notified)) :
    ((secret = none ∨ secret = some "") → db2 = db ∧ code = 500 ∧ notified = false) ∧
    (∀ sec, secret = some sec → sec ≠ "" →
      (signature = none ∨ signature = some "") →
      db2 = db ∧ code = 400 ∧ notified = false) ∧
    (∀ sec sig, secret = some sec → sec ≠ "" → signature = some sig → sig ≠ "" →
      sig ≠ mac sec body → db2 = db ∧ code = 400 ∧ notified = false) := by
  rw [Routes.paystack_webhook.eq_def] at h
  cases secret with
  | none =>
    obtain ⟨h1, h2, h3⟩ : db = db2 ∧ 500 = code ∧ false = notified := by
      refine ⟨congrArg Prod.fst h, ?_, ?_⟩
      · exact congrArg (fun x => x.2.1) h
      · exact congrArg (fun x => x.2.2) h
    refine ⟨fun _ => ⟨h1.symm, h2.symm, h3.symm⟩, ?_, ?_⟩
    · intro sec hsec; exact absurd hsec (by simp)
    · intro sec sig hsec; exact absurd hsec (by simp)
  | some sec =>
  simp only at h
  by_cases hsec : sec = ""
  · rw [if_pos hsec] at h
    obtain ⟨h1, h2, h3⟩ : db = db2 ∧ 500 = code ∧ false = notified := by
      refine ⟨congrArg Prod.fst h, ?_, ?_⟩
      · exact congrArg (fun x => x.2.1) h
      · exact congrArg (fun x => x.2.2) h
    refine ⟨fun _ => ⟨h1.symm, h2.symm, h3.symm⟩, ?_, ?_⟩
    · intro s hs hne _
      injection hs with hs2
      subst hs2
      exact absurd hsec hne
    · intro s g hs hne _ _ _
      injection hs with hs2
      subst hs2
      exact absurd hsec hne
  rw [if_neg hsec] at h
  cases signature with
  | none =>
    obtain ⟨h1, h2, h3⟩ : db = db2 ∧ 400 = code ∧ false = notified := by
      refine ⟨congrArg Prod.fst h, ?_, ?_⟩
      · exact congrArg (fun x => x.2.1) h
      · exact congrArg (fun x => x.2.2) h
    refine ⟨?_, fun _ _ _ _ => ⟨h1.symm, h2.symm, h3.symm⟩, ?_⟩
    · intro hcon
      rcases hcon with h' | h'
      · exact Option.noConfusion h'
      · injection h' with h''
        exact absurd h'' hsec
    · intro s g _ _ hg
      exact Option.noConfusion hg
  | some sig =>
  simp only at h
  by_cases hsig : sig = ""
  · rw [if_pos hsig] at h
    obtain ⟨h1, h2, h3⟩ : db = db2 ∧ 400 = code ∧ false = notified := by
      refine ⟨congrArg Prod.fst h, ?_, ?_⟩
      · exact congrArg (fun x => x.2.1) h
      · exact congrArg (fun x => x.2.2) h
    refine ⟨?_, fun _ _ _ _ => ⟨h1.symm, h2.symm, h3.symm⟩, ?_⟩
    · intro hcon
      rcases hcon with h' | h'
      · exact Option.noConfusion h'
      · injection h' with h''
        exact absurd h'' hsec
    · intro s g _ _ hg hgne _
      injection hg with hg2
      subst hg2
      exact absurd hsig hgne
  rw [if_neg hsig] at h
  by_cases hmac : sig ≠ mac sec body
  · rw [if_pos hmac] at h
    obtain ⟨h1, h2, h3⟩ : db = db2 ∧ 400 = code ∧ false = notified := by
      refine ⟨congrArg Prod.fst h, ?_, ?_⟩
      · exact congrArg (fun x => x.2.1) h
      · exact congrArg (fun x => x.2.2) h
    refine ⟨?_, ?_, fun _ _ _ _ _ _ _ => ⟨h1.symm, h2.symm, h3.symm⟩⟩
    · intro hcon
      rcases hcon with h' | h'
      · exact Option.noConfusion h'
      · injection h' with h''
        exact absurd h'' hsec
    · intro s hs hne hcon
      rcases hcon with h' | h'
      · exact Option.noConfusion h'
      · injection h' with h''
        exact absurd h'' hsig
  · refine ⟨?_, ?_, ?_⟩
    · intro hcon
      rcases hcon with h' | h'
      · exact Option.noConfusion h'
      · injection h' with h''
        exact absurd h'' hsec
    · intro s hs hne hcon
      rcases hcon with h' | h'
      · exact Option.noConfusion h'
      · injection h' with h''
        exact absurd h'' hsig
    · intro s g hs _ hg _ hne
      injection hs with hs2
      injection hg with hg2
      subst hs2
      subst hg2
      exact absurd hne hmac

/-- Witness for C4: a tampered signature on a charge.success payload for
the pending order 5 is rejected with 400 and the database unchanged. -/
theorem C4_webhook_signature_gate_witness :
    dbC5 = dbC5 ∧ (400 : Nat) = 400 ∧ false = false :=
  (C4_webhook_signature_gate (fun s b => s ++ b) (some "sk") (some "bad")
    "payload" (some ⟨some "charge.success", some 5⟩) dbC5 true (fun _ => none)
    true dbC5 400 false (by decide)).2.2 "sk" "bad" rfl (by decide) rfl
    (by decide) (by decide)

theorem nullifyTokenRefs_eq (tid : Nat) (recs : List RecipientRow) :
    nullifyTokenRefs tid recs = recs.map (nullifyIds [tid]) := by
  have hpt : (fun r : RecipientRow =>
      if r.fcm_token_id = some tid then { r with fcm_token_id := none } else r) =
      nullifyIds [tid] := by
    funext r
    cases hr : r.fcm_token_id with
    | none => simp [nullifyIds, hr]
    | some i => by_cases hi : i = tid <;> simp [nullifyIds, hr, hi]
  rw [nullifyTokenRefs, hpt]

theorem nullifyIds_nil (r : RecipientRow) : nullifyIds [] r = r := by
  cases hr : r.fcm_token_id <;> simp [nullifyIds, hr]

theorem nullifyIds_comp (ids1 ids2 : List Nat) (r : RecipientRow) :
    nullifyIds ids2 (nullifyIds ids1 r) = nullifyIds (ids1 ++ ids2) r := by
  cases hr : r.fcm_token_id with
  | none => simp [nullifyIds, hr]
  | some i =>
    by_cases h1 : i ∈ ids1
    · simp [nullifyIds, hr, h1]
    · by_cases h2 : i ∈ ids2 <;> simp [nullifyIds, hr, h1, h2]

theorem removedIds_subset_ids (out : DeviceTokenRow → Option String)
    (ts : List DeviceTokenRow) :
    ∀ i ∈ removedIds out ts, i ∈ ts.map fun t => t.id := by
  intro i hi
  rcases List.mem_map.mp hi with ⟨u, hu, rfl⟩
  exact List.mem_map.mpr ⟨u, (List.mem_filter.mp hu).1, rfl⟩

theorem sendLoop_spec (out : DeviceTokenRow → Option String) (nid : Nat) :
    ∀ (tokens : List DeviceTokenRow) (acc : SendAcc),
    (tokens.map fun t => t.id).Nodup →
    sendLoop out nid tokens acc =
      ⟨acc.sent + (tokens.filter fun t => (out t).isNone).length,
       acc.failed + (tokens.filter fun t => (out t).isSome).length,
       acc.recs.map (nullifyIds (removedIds out tokens)) ++
         mkRecipientRows nid acc.next_rec_id (tokens.filter fun t => (out t).isNone),
       acc.devs.filter fun d => decide (¬ d.id ∈ removedIds out tokens),
       acc.next_rec_id + (tokens.filter fun t => (out t).isNone).length⟩ := by
  intro tokens
  induction tokens with
  | nil =>
    intro acc _
    show acc = _
    have h1 : removedIds out ([] : List DeviceTokenRow) = [] := rfl
    rw [h1]
    cases acc with
    | mk s f r d n =>
      simp [mkRecipientRows, show nullifyIds [] = id from funext nullifyIds_nil]
  | cons t ts ih =>
    intro acc hnd
    rw [List.map_cons, List.nodup_cons] at hnd
    have hnotin : ¬ t.id ∈ removedIds out ts := fun hmem =>
      hnd.1 (removedIds_subset_ids out ts t.id hmem)
    have hstep : sendLoop out nid (t :: ts) acc =
        sendLoop out nid ts (sendStep out nid acc t) := by
      simp [sendLoop]
    rw [hstep, ih _ hnd.2]
    cases hout : out t with
    | none =>
      have hR : removedIds out (t :: ts) = removedIds out ts := by
        simp [removedIds, List.filter_cons, tokenInvalid, hout]
      have hS : (t :: ts).filter (fun t => (out t).isNone) =
          t :: ts.filter fun t => (out t).isNone := by
        simp [List.filter_cons, hout]
      have hF : (t :: ts).filter (fun t => (out t).isSome) =
          ts.filter fun t => (out t).isSome := by
        simp [List.filter_cons, hout]
      simp only [sendStep, hout]
      simp only [hR, hS, hF, List.length_cons, SendAcc.mk.injEq]
      refine ⟨by first | trivial | omega, by first | trivial | omega, ?_,
        by first | trivial | omega, by first | trivial | omega⟩
      rw [List.map_append, mkRecipientRows]
      simp only [List.map_cons, List.map_nil]
      rw [show nullifyIds (removedIds out ts)
          ⟨acc.next_rec_id, nid, t.device_id, some t.id, false⟩ =
          ⟨acc.next_rec_id, nid, t.device_id, some t.id, false⟩ from by
        simp [nullifyIds, hnotin]]
      simp [List.append_assoc]
    | some e =>
      by_cases hinv : isInvalidTokenError e
      · have hR : removedIds out (t :: ts) = t.id :: removedIds out ts := by
          simp [removedIds, List.filter_cons, tokenInvalid, hout, hinv]
        have hS : (t :: ts).filter (fun t => (out t).isNone) =
            ts.filter fun t => (out t).isNone := by
          simp [List.filter_cons, hout]
        have hF : (t :: ts).filter (fun t => (out t).isSome) =
            t :: ts.filter fun t => (out t).isSome := by
          simp [List.filter_cons, hout]
        simp only [sendStep, hout, if_pos hinv]
        simp only [hR, hS, hF, List.length_cons, SendAcc.mk.injEq]
        refine ⟨by first | trivial | omega, by first | trivial | omega, ?_, ?_,
          by first | trivial | omega⟩
        · rw [nullifyTokenRefs_eq, List.map_map]
          have hcomp : nullifyIds (removedIds out ts) ∘ nullifyIds [t.id] =
              nullifyIds (t.id :: removedIds out ts) := by
            funext r
            rw [Function.comp_apply, nullifyIds_comp]
            rfl
          rw [hcomp]
        · rw [List.filter_filter]
          have hpred : (fun d : DeviceTokenRow =>
              decide (¬ d.id ∈ removedIds out ts) && decide (d.id ≠ t.id)) =
              fun d : DeviceTokenRow =>
                decide (¬ d.id ∈ t.id :: removedIds out ts) := by
            funext d
            by_cases h1 : d.id = t.id
            · simp [h1]
            · by_cases h2 : d.id ∈ removedIds out ts <;> simp [h1, h2]
          rw [hpred]
      · have hR : removedIds out (t :: ts) = removedIds out ts := by
          simp [removedIds, List.filter_cons, tokenInvalid, hout, hinv]
        have hS : (t :: ts).filter (fun t => (out t).isNone) =
            ts.filter fun t => (out t).isNone := by
          simp [List.filter_cons, hout]
        have hF : (t :: ts).filter (fun t => (out t).isSome) =
            t :: ts.filter fun t => (out t).isSome := by
          simp [List.filter_cons, hout]
        simp only [sendStep, hout, if_neg hinv]
        simp only [hR, hS, hF, List.length_cons, SendAcc.mk.injEq]
        exact ⟨by first | trivial | omega, by first | trivial | omega,
          by first | trivial | omega, by first | trivial | omega,
          by first | trivial | omega⟩

theorem length_filter_outcome (out : DeviceTokenRow → Option String)
    (tokens : List DeviceTokenRow) :
    (tokens.filter fun t => (out t).isNone).length +
      (tokens.filter fun t => (out t).isSome).length = tokens.length := by
  induction tokens with
  | nil => rfl
  | cons t ts ih => cases hout : out t <;> simp [List.filter_cons, hout] <;> omega

theorem send_all_spec (db : DBState) (title msg : String)
    (tokens : List DeviceTokenRow) (out : DeviceTokenRow → Option String)
    (db2 : DBState) (res : Except Unit (Option NotificationRow))
    (hnd : (tokens.map fun t => t.id).Nodup)
    (h : NotificationService.send_notification_to_all db title msg tokens out true =
      (db2, res)) :
    db2.notifications = db.notifications ++
      [⟨db.next_notif_id, title, msg,
        (tokens.filter fun t => (out t).isNone).length,
        (tokens.filter fun t => (out t).isSome).length⟩] ∧
    (tokens.filter fun t => (out t).isNone).length +
      (tokens.filter fun t => (out t).isSome).length = tokens.length ∧
    db2.recipients = db.recipients.map (nullifyIds (removedIds out tokens)) ++
      mkRecipientRows db.next_notif_id db.next_rec_id
        (tokens.filter fun t => (out t).isNone) ∧
    db2.device_tokens = db.device_tokens.filter
      (fun d => decide (¬ d.id ∈ removedIds out tokens)) ∧
    db2.orders = db.orders := by
  simp only [NotificationService.send_notification_to_all] at h
  rw [if_pos trivial] at h
  rw [sendLoop_spec out db.next_notif_id tokens _ hnd] at h
  have h1 := congrArg Prod.fst h
  subst h1
  refine ⟨by simp, length_filter_outcome out tokens, by simp, by simp, by simp⟩

/-- C6 (amended): a fan-out (send_notification_to_all, and
send_notification_to_admin over the admin tokens when messaging is
configured and an admin token exists) creates exactly one Notification row
whose sent plus failed counters equal the number of attempted deliveries;
one NotificationRecipient row is recorded per successful send (a failed
send records none); a delivery error classified token-invalid removes the
offending DeviceToken after nullifying recipient references to it, while
tokens with other outcomes survive. -/
theorem C6_notification_fanout (db : DBState) (title msg : String)
    (tokens : List DeviceTokenRow) (out : DeviceTokenRow → Option String)
    (ru : Option String) :
    (∀ db2 res, (tokens.map fun t => t.id).Nodup →
      NotificationService.send_notification_to_all db title msg tokens out true =
        (db2, res) →
      db2.notifications = db.notifications ++
        [⟨db.next_notif_id, title, msg,
          (tokens.filter fun t => (out t).isNone).length,
          (tokens.filter fun t => (out t).isSome).length⟩] ∧
      (tokens.filter fun t => (out t).isNone).length +
        (tokens.filter fun t => (out t).isSome).length = tokens.length ∧
      db2.recipients = db.recipients.map (nullifyIds (removedIds out tokens)) ++
        mkRecipientRows db.next_notif_id db.next_rec_id
          (tokens.filter fun t => (out t).isNone) ∧
      db2.device_tokens = db.device_tokens.filter
        (fun d => decide (¬ d.id ∈ removedIds out tokens)) ∧
      db2.orders = db.orders) ∧
    (∀ db2 res,
      ((db.device_tokens.filter fun d => d.is_admin).map fun t => t.id).Nodup →
      (db.device_tokens.filter fun d => d.is_admin) ≠ [] →
      NotificationService.send_notification_to_admin db title msg ru true out true =
        (db2, res) →
      db2.notifications = db.notifications ++
        [⟨db.next_notif_id, title, msg,
          ((db.device_tokens.filter fun d => d.is_admin).filter
            fun t => (out t).isNone).length,
          ((db.device_tokens.filter fun d => d.is_admin).filter
            fun t => (out t).isSome).length⟩] ∧
      db2.device_tokens = db.device_tokens.filter
        (fun d => decide (¬ d.id ∈
          removedIds out (db.device_tokens.filter fun d => d.is_admin))) ∧
      db2.orders = db.orders) := by
  constructor
  · intro db2 res hnd h
    exact send_all_spec db title msg tokens out db2 res hnd h
  · intro db2 res hnd hne h
    rw [NotificationService.send_notification_to_admin] at h
    rw [if_pos rfl] at h
    rw [if_neg (by simpa using hne)] at h
    obtain ⟨h1, -, h3, h4, h5⟩ :=
      send_all_spec db title msg _ out db2 res hnd h
    exact ⟨h1, h4, h5⟩

/-- Counterexample to C6 as stated: one attempted delivery that fails with
a non-token-invalid error (network timeout) records zero
NotificationRecipient rows, not one per attempted send; the counters still
show the attempt (sent 0, failed 1) and the token is retained. -/
theorem C6_counterexample :
    (NotificationService.send_notification_to_all cxDB "T" "M" [cxTok]
        (fun _ => some "network timeout") true).1.recipients.length = 0 ∧
    cxDB.recipients.length = 0 ∧
    ([cxTok] : List DeviceTokenRow).length = 1 ∧
    (NotificationService.send_notification_to_all cxDB "T" "M" [cxTok]
        (fun _ => some "network timeout") true).1.notifications =
      [⟨1, "T", "M", 0, 1⟩] ∧
    (NotificationService.send_notification_to_all cxDB "T" "M" [cxTok]
        (fun _ => some "network timeout") true).1.device_tokens = [cxTok] ∧
    (0 : Nat) ≠ 1 := by decide

/-- Witness for C6: a fan-out over the two fixture tokens creates one
notification row with counters 1 and 1, records one recipient for the
successful send, nullifies the dangling reference to token 2 and removes
it. -/
theorem C6_notification_fanout_witness :
    wDB2.notifications = wDB.notifications ++
      [⟨wDB.next_notif_id, "T", "M",
        (([wTok1, wTok2].filter fun t => (wOut t).isNone)).length,
        (([wTok1, wTok2].filter fun t => (wOut t).isSome)).length⟩] ∧
    (([wTok1, wTok2].filter fun t => (wOut t).isNone)).length +
      (([wTok1, wTok2].filter fun t => (wOut t).isSome)).length =
      ([wTok1, wTok2] : List DeviceTokenRow).length ∧
    wDB2.recipients = wDB.recipients.map
        (nullifyIds (removedIds wOut [wTok1, wTok2])) ++
      mkRecipientRows wDB.next_notif_id wDB.next_rec_id
        ([wTok1, wTok2].filter fun t => (wOut t).isNone) ∧
    wDB2.device_tokens = wDB.device_tokens.filter
      (fun d => decide (¬ d.id ∈ removedIds wOut [wTok1, wTok2])) ∧
    wDB2.orders = wDB.orders :=
  (C6_notification_fanout wDB "T" "M" [wTok1, wTok2] wOut none).1 wDB2
    (.ok (some ⟨4, "T", "M", 1, 1⟩)) (by decide) (by decide)

theorem updateFirstToken_tokens (tok dev : String) (adm : Bool) :
    ∀ l : List DeviceTokenRow,
    (updateFirstToken tok dev adm l).map (fun x => x.fcm_token) =
      l.map fun x => x.fcm_token := by
  intro l
  induction l with
  | nil => rfl
  | cons x xs ih =>
    by_cases hx : x.fcm_token = tok
    · simp [updateFirstToken, hx, updateTokenRow]
    · simp [updateFirstToken, hx, ih]

theorem updateFirstToken_count (tok dev : String) (adm : Bool) (tok2 : String) :
    ∀ l : List DeviceTokenRow,
    ((updateFirstToken tok dev adm l).filter fun x => decide (x.fcm_token = tok2)).length =
      (l.filter fun x => decide (x.fcm_token = tok2)).length := by
  intro l
  induction l with
  | nil => rfl
  | cons x xs ih =>
    by_cases hx : x.fcm_token = tok
    · rw [updateFirstToken, if_pos hx]
      by_cases h2 : x.fcm_token = tok2
      · simp [List.filter_cons, updateTokenRow, h2]
      · simp [List.filter_cons, updateTokenRow, h2]
    · rw [updateFirstToken, if_neg hx]
      by_cases h2 : x.fcm_token = tok2 <;> simp [List.filter_cons, h2, ih]

theorem updateFirstToken_filter (tok dev : String) (adm : Bool) :
    ∀ l : List DeviceTokenRow,
    (l.map fun d => d.fcm_token).Nodup →
    ∀ d0, l.find? (fun d => decide (d.fcm_token = tok)) = some d0 →
    (updateFirstToken tok dev adm l).filter (fun x => decide (x.fcm_token = tok)) =
      [updateTokenRow dev adm d0] := by
  intro l
  induction l with
  | nil => intro _ d0 hf; exact Option.noConfusion hf
  | cons x xs ih =>
    intro hnd d0 hf
    rw [List.map_cons, List.nodup_cons] at hnd
    by_cases hx : x.fcm_token = tok
    · rw [List.find?_cons_of_pos _ (by simpa using hx)] at hf
      injection hf with hf2
      subst hf2
      have hxs : xs.filter (fun y => decide (y.fcm_token = tok)) = [] := by
        rw [List.filter_eq_nil_iff]
        intro y hy
        simp only [decide_eq_true_eq]
        intro hyt
        exact hnd.1 (hx ▸ hyt ▸ List.mem_map.mpr ⟨y, hy, rfl⟩)
      rw [updateFirstToken, if_pos hx]
      simp [List.filter_cons, updateTokenRow, hx, hxs]
    · rw [List.find?_cons_of_neg _ (by simpa using hx)] at hf
      rw [updateFirstToken, if_neg hx]
      rw [List.filter_cons]
      rw [if_neg (by simpa using hx)]
      exact ih hnd.2 d0 hf

theorem find?_append_token (tok : String) (row : DeviceTokenRow)
    (hrow : row.fcm_token = tok) :
    ∀ l : List DeviceTokenRow, (∀ y ∈ l, y.fcm_token ≠ tok) →
    (l ++ [row]).find? (fun d => decide (d.fcm_token = tok)) = some row := by
  intro l
  induction l with
  | nil =>
    intro _
    rw [List.nil_append, List.find?_cons_of_pos _ (by simp [hrow])]
  | cons x xs ih =>
    intro hno
    rw [List.cons_append, List.find?_cons_of_neg _ (by simpa using hno x (by simp))]
    exact ih fun y hy => hno y (List.mem_cons_of_mem _ hy)

theorem register_token_spec (db : DBState) (tok dev : String) (adm : Bool)
    (raced : Option (String × Bool)) (hu : TokenUnique db) :
    TokenUnique (NotificationService.register_token db tok dev adm raced).1 ∧
    countToken (NotificationService.register_token db tok dev adm raced).1 tok = 1 ∧
    (∀ X, X ≠ tok →
      countToken (NotificationService.register_token db tok dev adm raced).1 X =
        countToken db X) ∧
    (∃ d, (NotificationService.register_token db tok dev adm raced).1.device_tokens.filter
        (fun x => decide (x.fcm_token = tok)) = [d] ∧
      d.fcm_token = tok ∧ d.device_id = dev ∧
      (adm = true → d.is_admin = true) ∧
      (db.device_tokens.find? (fun x => decide (x.fcm_token = tok)) = none →
        raced = none → d.is_admin = adm)) := by
  rw [NotificationService.register_token.eq_def]
  cases hfind : db.device_tokens.find? (fun d => decide (d.fcm_token = tok)) with
  | some d0 =>
    have hd0tok : d0.fcm_token = tok := by
      have := List.find?_some hfind
      simpa using this
    have hflt := updateFirstToken_filter tok dev adm db.device_tokens hu d0 hfind
    refine ⟨?_, ?_, ?_, ?_⟩
    · show ((updateFirstToken tok dev adm db.device_tokens).map fun d => d.fcm_token).Nodup
      rw [updateFirstToken_tokens]
      exact hu
    · show ((updateFirstToken tok dev adm db.device_tokens).filter
        fun x => decide (x.fcm_token = tok)).length = 1
      rw [hflt]
      rfl
    · intro X hX
      show ((updateFirstToken tok dev adm db.device_tokens).filter
        fun x => decide (x.fcm_token = X)).length = _
      rw [updateFirstToken_count]
      rfl
    · refine ⟨updateTokenRow dev adm d0, hflt, hd0tok, rfl, ?_, ?_⟩
      · intro ha; simp [updateTokenRow, ha]
      · intro hnone; exact absurd hnone (by simp)
  | none =>
    have hnotin : ∀ y ∈ db.device_tokens, y.fcm_token ≠ tok := by
      intro y hy
      have := List.find?_eq_none.mp hfind y hy
      simpa using this
    have hfl : db.device_tokens.filter (fun x => decide (x.fcm_token = tok)) = [] := by
      rw [List.filter_eq_nil_iff]
      intro y hy
      simpa using hnotin y hy
    have htokmem : ¬ tok ∈ db.device_tokens.map fun d => d.fcm_token := by
      intro hmem
      rcases List.mem_map.mp hmem with ⟨y, hy, hyt⟩
      exact hnotin y hy hyt
    cases raced with
    | none =>
      refine ⟨?_, ?_, ?_, ?_⟩
      · show ((db.device_tokens ++ [(⟨db.next_token_id, dev, tok, adm⟩ : DeviceTokenRow)]).map
          fun d => d.fcm_token).Nodup
        rw [List.map_append, List.nodup_append]
        refine ⟨hu, List.nodup_singleton _, ?_⟩
        intro a ha hb
        simp only [List.map_cons, List.map_nil, List.mem_singleton] at hb
        subst hb
        exact htokmem ha
      · show ((db.device_tokens ++ [(⟨db.next_token_id, dev, tok, adm⟩ : DeviceTokenRow)]).filter
          fun x => decide (x.fcm_token = tok)).length = 1
        rw [List.filter_append, hfl]
        simp
      · intro X hX
        show ((db.device_tokens ++ [(⟨db.next_token_id, dev, tok, adm⟩ : DeviceTokenRow)]).filter
          fun x => decide (x.fcm_token = X)).length = _
        rw [List.filter_append]
        have hone : (([⟨db.next_token_id, dev, tok, adm⟩] : List DeviceTokenRow).filter
            fun x => decide (x.fcm_token = X)) = [] := by
          simp [List.filter_cons, Ne.symm hX]
        rw [hone, List.append_nil]
        rfl
      · refine ⟨(⟨db.next_token_id, dev, tok, adm⟩ : DeviceTokenRow), ?_, rfl, rfl,
          fun h => h, fun _ _ => rfl⟩
        show ((db.device_tokens ++ [(⟨db.next_token_id, dev, tok, adm⟩ : DeviceTokenRow)]).filter
          fun x => decide (x.fcm_token = tok)) = _
        rw [List.filter_append, hfl]
        simp
    | some rc =>
      have hfind2 : (db.device_tokens ++ [(⟨db.next_token_id, rc.1, tok, rc.2⟩ : DeviceTokenRow)]).find?
          (fun d => decide (d.fcm_token = tok)) =
          some (⟨db.next_token_id, rc.1, tok, rc.2⟩ : DeviceTokenRow) :=
        find?_append_token tok _ rfl db.device_tokens hnotin
      have hnd2 : ((db.device_tokens ++ [(⟨db.next_token_id, rc.1, tok, rc.2⟩ : DeviceTokenRow)]).map
          fun d => d.fcm_token).Nodup := by
        rw [List.map_append, List.nodup_append]
        refine ⟨hu, List.nodup_singleton _, ?_⟩
        intro a ha hb
        simp only [List.map_cons, List.map_nil, List.mem_singleton] at hb
        subst hb
        exact htokmem ha
      have hflt := updateFirstToken_filter tok dev adm _ hnd2 _ hfind2
      refine ⟨?_, ?_, ?_, ?_⟩
      · show ((updateFirstToken tok dev adm
          (db.device_tokens ++ [(⟨db.next_token_id, rc.1, tok, rc.2⟩ : DeviceTokenRow)])).map
            fun d => d.fcm_token).Nodup
        rw [updateFirstToken_tokens]
        exact hnd2
      · show ((updateFirstToken tok dev adm
          (db.device_tokens ++ [(⟨db.next_token_id, rc.1, tok, rc.2⟩ : DeviceTokenRow)])).filter
            fun x => decide (x.fcm_token = tok)).length = 1
        rw [hflt]
        rfl
      · intro X hX
        show ((updateFirstToken tok dev adm
          (db.device_tokens ++ [(⟨db.next_token_id, rc.1, tok, rc.2⟩ : DeviceTokenRow)])).filter
            fun x => decide (x.fcm_token = X)).length = _
        rw [updateFirstToken_count, List.filter_append]
        have hone : (([(⟨db.next_token_id, rc.1, tok, rc.2⟩ : DeviceTokenRow)] : List DeviceTokenRow).filter
            fun x => decide (x.fcm_token = X)) = [] := by
          simp [List.filter_cons, Ne.symm hX]
        rw [hone, List.append_nil]
        rfl
      · refine ⟨updateTokenRow dev adm (⟨db.next_token_id, rc.1, tok, rc.2⟩ : DeviceTokenRow), hflt,
          rfl, rfl, ?_, ?_⟩
        · intro ha; simp [updateTokenRow, ha]
        · intro _ hrc; exact Option.noConfusion hrc

/-- C7 (amended): register_token is an upsert keyed by token.  Starting
from a token-unique state, any sequence of registrations (including ones
that hit the concurrent duplicate-insert race and retry as an update)
preserves token uniqueness, and every registered token ends up in exactly
one row; a single registration always leaves exactly one row for its
token, carrying the last-written device_id, with the admin flag raised
when the registration asks for it - but never lowered: a pre-existing true
admin flag survives a registration with is_admin false (see the
counterexample), so is_admin is not last-writer-wins. -/
theorem C7_register_token_upsert (ops : List RegOp) (db : DBState)
    (hu : TokenUnique db) :
    TokenUnique (ops.foldl applyReg db) ∧
    (∀ X, (∃ op ∈ ops, op.token = X) →
      countToken (ops.foldl applyReg db) X = 1) ∧
    (∀ dbx tok dev adm raced, TokenUnique dbx →
      ∃ d, (NotificationService.register_token dbx tok dev adm raced).1.device_tokens.filter
          (fun x => decide (x.fcm_token = tok)) = [d] ∧
        d.fcm_token = tok ∧ d.device_id = dev ∧
        (adm = true → d.is_admin = true) ∧
        (dbx.device_tokens.find? (fun x => decide (x.fcm_token = tok)) = none →
          raced = none → d.is_admin = adm)) := by
  have main : ∀ (ops2 : List RegOp) (db2 : DBState), TokenUnique db2 →
      TokenUnique (ops2.foldl applyReg db2) ∧
      ∀ X, ((∃ op ∈ ops2, op.token = X) ∨ countToken db2 X = 1) →
        countToken (ops2.foldl applyReg db2) X = 1 := by
    intro ops2
    induction ops2 with
    | nil =>
      intro db2 hu2
      refine ⟨hu2, ?_⟩
      intro X hx
      rcases hx with ⟨op, hop, -⟩ | hc
      · exact absurd hop (List.not_mem_nil op)
      · exact hc
    | cons op rest ih =>
      intro db2 hu2
      have hspec := register_token_spec db2 op.token op.device_id op.is_admin op.raced hu2
      have hstep : (op :: rest).foldl applyReg db2 = rest.foldl applyReg (applyReg db2 op) :=
        List.foldl_cons _ _
      rw [hstep]
      obtain ⟨ihu, ihc⟩ := ih (applyReg db2 op) hspec.1
      refine ⟨ihu, ?_⟩
      intro X hx
      rcases hx with ⟨op2, hop2, hXt⟩ | hc
      · rcases List.mem_cons.mp hop2 with rfl | hop2
        · exact ihc X (Or.inr (hXt ▸ hspec.2.1))
        · exact ihc X (Or.inl ⟨op2, hop2, hXt⟩)
      · by_cases hXop : X = op.token
        · exact ihc X (Or.inr (hXop ▸ hspec.2.1))
        · exact ihc X (Or.inr ((hspec.2.2.1 X hXop).trans hc))
  obtain ⟨h1, h2⟩ := main ops db hu
  exact ⟨h1, fun X hX => h2 X (Or.inl hX),
    fun dbx tok dev adm raced hux =>
      (register_token_spec dbx tok dev adm raced hux).2.2.2⟩

/-- Counterexample to C7 as stated: registering token t with is_admin
true and then again with is_admin false leaves one row whose device_id
took the last write (d2) but whose is_admin is still true, so is_admin is
not last-writer-wins. -/
theorem C7_counterexample :
    (NotificationService.register_token
        (NotificationService.register_token regDB "t" "d1" true none).1
        "t" "d2" false none).1.device_tokens =
      [(⟨1, "d2", "t", true⟩ : DeviceTokenRow)] ∧
    (⟨1, "d2", "t", true⟩ : DeviceTokenRow).is_admin = true ∧
    (⟨1, "d2", "t", true⟩ : DeviceTokenRow).device_id = "d2" ∧
    true ≠ false := by decide

/-- Witness for C7: after registering token t twice, tokens stay unique
and exactly one row holds t. -/
theorem C7_register_token_upsert_witness :
    TokenUnique (regOps.foldl applyReg regDB) ∧
    countToken (regOps.foldl applyReg regDB) "t" = 1 := by
  have H := C7_register_token_upsert regOps regDB (by simp [TokenUnique, regDB])
  exact ⟨H.1, H.2.1 "t" ⟨⟨"t", "d1", true, none⟩, by decide, rfl⟩⟩

theorem mem_sortByCreatedDesc {a : OrderRow} :
    ∀ {l : List OrderRow}, a ∈ sortByCreatedDesc l ↔ a ∈ l := by
  intro l
  induction l with
  | nil => simp [sortByCreatedDesc]
  | cons x xs ih => simp [sortByCreatedDesc, mem_insertByCreated, ih]

theorem newestFirst_take_drop (l : List OrderRow) (skip limit : Nat) :
    NewestFirst (((sortByCreatedDesc l).drop skip).take limit) := by
  have h1 : List.Sublist (((sortByCreatedDesc l).drop skip).take limit)
      (sortByCreatedDesc l) :=
    (List.take_sublist _ _).trans (List.drop_sublist _ _)
  exact (newestFirst_sortByCreatedDesc l).sublist h1

theorem statusStage_subset (sf : Option String) (q : List OrderRow) :
    ∀ o ∈ statusStage sf q, o ∈ q := by
  intro o ho
  rcases sf with _ | s
  · exact ho
  · simp only [statusStage] at ho
    by_cases hs : s = ""
    · rw [if_pos hs] at ho; exact ho
    · rw [if_neg hs] at ho; exact (List.mem_filter.mp ho).1

theorem dateStage_subset (dr : String → Option (Nat × Nat)) (ds : Option String)
    (q : List OrderRow) : ∀ o ∈ dateStage dr ds q, o ∈ q := by
  intro o ho
  rcases ds with _ | s
  · exact ho
  · simp only [dateStage] at ho
    by_cases hs : s = ""
    · rw [if_pos hs] at ho; exact ho
    · rw [if_neg hs] at ho
      cases hdr : dr s with
      | none => rw [hdr] at ho; exact ho
      | some lohi =>
        rw [hdr] at ho
        exact (List.mem_filter.mp ho).1

theorem searchStage_subset (se : Option String) (q : List OrderRow) :
    ∀ o ∈ searchStage se q, o ∈ q := by
  intro o ho
  rcases se with _ | s
  · exact ho
  · simp only [searchStage] at ho
    by_cases hs : s = ""
    · rw [if_pos hs] at ho; exact ho
    · rw [if_neg hs] at ho
      cases hp : pyIntOfString ⟨s.data.filter fun c => c ≠ '#'⟩ with
      | none => rw [hp] at ho; exact (List.mem_filter.mp ho).1
      | some n => rw [hp] at ho; exact (List.mem_filter.mp ho).1

theorem statusStage_status (s : String) (hne : s ≠ "") (q : List OrderRow) :
    ∀ o ∈ statusStage (some s) q, o.status = s := by
  intro o ho
  simp only [statusStage] at ho
  rw [if_neg hne] at ho
  have h2 := (List.mem_filter.mp ho).2
  simpa using h2

theorem searchStage_none_parse (s : String) (hne : s ≠ "")
    (hp : pyIntOfString ⟨s.data.filter fun c => c ≠ '#'⟩ = none)
    (q : List OrderRow) : searchStage (some s) q = [] := by
  simp only [searchStage]
  rw [if_neg hne]
  simp only [hp]
  rw [List.filter_eq_nil_iff]
  intro o _
  simp only [decide_eq_true_eq]
  omega

theorem userStatusStage_mem (s : String) (hne : s ≠ "") (q : List OrderRow) :
    ∀ o ∈ userStatusStage (some s) q,
      o.status ∈ (pySplit ',' s).map pyStrip := by
  intro o ho
  simp only [userStatusStage] at ho
  rw [if_neg hne] at ho
  cases hsts : (pySplit ',' s).map pyStrip with
  | nil =>
    simp only [hsts] at ho
    have h2 := (List.mem_filter.mp ho).2
    simp at h2
  | cons st rest =>
    cases rest with
    | nil =>
      simp only [hsts] at ho
      have h2 := (List.mem_filter.mp ho).2
      simp only [decide_eq_true_eq] at h2
      simp [h2]
    | cons b bs =>
      simp only [hsts] at ho
      have h2 := (List.mem_filter.mp ho).2
      simpa using h2

/-- C8 (amended): the admin order listing is always newest-first; a
free-text id search that does not convert to an integer matches zero rows
without raising; its status filter is a single exact-match value, so a
comma-separated status set matches only orders whose status literally
equals the whole string (see the counterexample) - comma-separated OR
semantics exists only in the user-orders route, whose results are also
newest-first. -/
theorem C8_list_orders_filters (dr : String → Option (Nat × Nat))
    (db : DBState) (skip limit : Nat) (sf ds se : Option String) :
    NewestFirst (OrderService.get_orders dr db skip limit sf ds se) ∧
    (∀ s, se = some s → s ≠ "" →
      pyIntOfString ⟨s.data.filter fun c => c ≠ '#'⟩ = none →
      OrderService.get_orders dr db skip limit sf ds se = []) ∧
    (∀ s, sf = some s → s ≠ "" →
      ∀ o ∈ OrderService.get_orders dr db skip limit sf ds se, o.status = s) ∧
    (∀ (db2 : DBState) (uid cookie sfu : Option String) (skip2 limit2 : Nat),
      NewestFirst (Routes.get_user_orders db2 uid cookie sfu skip2 limit2) ∧
      ∀ s, sfu = some s → s ≠ "" →
        ∀ o ∈ Routes.get_user_orders db2 uid cookie sfu skip2 limit2,
          o.status ∈ (pySplit ',' s).map pyStrip) := by
  refine ⟨?_, ?_, ?_, ?_⟩
  · rw [OrderService.get_orders]
    exact newestFirst_take_drop _ _ _
  · intro s hse hne hp
    subst hse
    rw [OrderService.get_orders, searchStage_none_parse s hne hp,
      show sortByCreatedDesc [] = [] from rfl, List.drop_nil, List.take_nil]
  · intro s hsf hne o ho
    subst hsf
    rw [OrderService.get_orders] at ho
    have h4 := ((List.take_sublist _ _).trans (List.drop_sublist _ _)).subset ho
    have h5 := mem_sortByCreatedDesc.mp h4
    have h6 := searchStage_subset _ _ _ h5
    have h7 := dateStage_subset _ _ _ _ h6
    exact statusStage_status s hne _ _ h7
  · intro db2 uid cookie sfu skip2 limit2
    constructor
    · cases hd : pyOrOpt uid cookie with
      | none =>
        simp only [Routes.get_user_orders, hd]
        exact List.Pairwise.nil
      | some dev =>
        simp only [Routes.get_user_orders, hd]
        by_cases hdev : dev = ""
        · rw [if_pos hdev]; exact List.Pairwise.nil
        · rw [if_neg hdev]; exact newestFirst_take_drop _ _ _
    · intro s hs hne o ho
      subst hs
      cases hd : pyOrOpt uid cookie with
      | none =>
        simp only [Routes.get_user_orders, hd] at ho
        exact absurd ho (List.not_mem_nil o)
      | some dev =>
        simp only [Routes.get_user_orders, hd] at ho
        by_cases hdev : dev = ""
        · rw [if_pos hdev] at ho
          exact absurd ho (List.not_mem_nil o)
        · rw [if_neg hdev] at ho
          have h4 := ((List.take_sublist _ _).trans (List.drop_sublist _ _)).subset ho
          have h5 := mem_sortByCreatedDesc.mp h4
          exact userStatusStage_mem s hne _ o h5

/-- Counterexample to C8 as stated: the admin list with the
comma-separated status filter pending,confirmed returns no rows although
orders in both statuses exist (no status equals the literal string), so
the admin status filter has no comma-separated OR semantics; the
user-orders route does return both orders, newest first. -/
theorem C8_counterexample :
    OrderService.get_orders (fun _ => none) db8 0 100
      (some "pending,confirmed") none none = [] ∧
    ordP ∈ db8.orders ∧ ordP.status = "pending" ∧
    ordQ ∈ db8.orders ∧ ordQ.status = "confirmed" ∧
    Routes.get_user_orders db8 (some "d") none
      (some "pending,confirmed") 0 100 = [ordQ, ordP] := by decide

/-- Witness for C8: a single-status admin listing is newest-first and the
non-integer search string abc matches zero rows. -/
theorem C8_list_orders_filters_witness :
    NewestFirst (OrderService.get_orders (fun _ => none) db8 0 100
      (some "pending") none none) ∧
    OrderService.get_orders (fun _ => none) db8 0 100 none none (some "abc") = [] :=
  ⟨(C8_list_orders_filters (fun _ => none) db8 0 100 (some "pending") none none).1,
   (C8_list_orders_filters (fun _ => none) db8 0 100 none none (some "abc")).2.1
     "abc" rfl (by decide) (by decide)⟩
